import Mathlib

/-!
# Dead-tower interpolation (`RawTowerDeadTowerInterp::process_event`)

A shallow embedding of `offline/packages/CaloReco/RawTowerDeadTowerInterp.cc`.

* Tower energies are `double` in the source; here they are exact rationals, so every
  statement about a recovered energy is a statement over `ℚ`.
* `int` is embedded as `Int`.  The only arithmetic on `int` that can leave the 32-bit range is
  `bineta + 1` (or `binphi + 1`) at the index `2^31 - 1`, which validation admits when the bin
  count is `2^31 - 1`.  `wrapNeighbor` takes the sums over the integers; `wrapNeighbor32` and
  `neighborLoop32` are the same lines with every `int` result wrapped to 32 bits, and
  `wrapNeighbor32_eq` shows that the two agree whenever neither index is `2^31 - 1`.
* `exit(2)` and a failed `assert` end the call without a return value; they are the two
  constructors of `Fatal`.
* `m_geometry` and `m_calibTowers` are non-null whenever `InitRun` succeeded
  (`CreateNodes` throws otherwise), so they are plain fields of `Module`.
-/

namespace RawTowerDeadTowerInterp

/-! ## Data model -/

/-- Tower identifier, `RawTowerDefs::keytype` (an unsigned integer). -/
abbrev keytype := Nat

/-- Modelled from the spec: the completion status returned to the caller (ok / abort); the
enumeration `Fun4AllReturnCodes` is declared outside the sources at hand. -/
inductive Fun4AllReturnCodes where
  | EVENT_OK
  | ABORTRUN
  deriving DecidableEq, Repr

/-- Ways `process_event` ends without reaching its `return`. -/
inductive Fatal where
  /-- The branch `towerGeom == nullptr`: "invalid dead tower ID", then `exit(2)`. -/
  | invalidDeadTower (key : keytype)
  /-- Some `assert` did not hold. -/
  | assertFailed
  deriving DecidableEq, Repr

/-- Geometry provider (`RawTowerGeomContainer`), taken as a parameter: the two bin counts and
the lookup `get_tower_geometry`, which yields `(get_bineta, get_binphi)` of the tower geometry,
or `none` for the null pointer. -/
structure RawTowerGeomContainer where
  get_etabins : Int
  get_phibins : Int
  get_tower_geometry : keytype → Option (Int × Int)

/-- Dead-classification provider (`RawTowerDeadMap`), taken as a parameter: the dead towers in
the order the range-for loop enumerates them, and the flag `isDeadTower(ieta, iphi)`. -/
structure RawTowerDeadMap where
  getDeadTowers : List keytype
  isDeadTower : Int → Int → Bool

/-- Modelled from the spec: the readings store (`RawTowerContainer`), a sparse mapping from
tower id to energy with `get(CellId) → optional` and insert-or-update `set(CellId, value)`;
`encode_towerid` is the container's coordinate-to-id function (`cellAt`). -/
structure RawTowerContainer where
  encode_towerid : Int → Int → keytype
  towers : keytype → Option ℚ

/-- Energy of `getTower(key)`, `none` for the null pointer. -/
def RawTowerContainer.getTowerByKey (c : RawTowerContainer) (key : keytype) : Option ℚ :=
  c.towers key

/-- Energy of `getTower(ieta, iphi)`, `none` for the null pointer. -/
def RawTowerContainer.getTower (c : RawTowerContainer) (ieta iphi : Int) : Option ℚ :=
  c.towers (c.encode_towerid ieta iphi)

/-- Effect of `set_energy(e)` on the tower found or freshly created for `key`, followed by
`AddTower(key, deadTower)`. -/
def RawTowerContainer.AddTower (c : RawTowerContainer) (key : keytype) (e : ℚ) :
    RawTowerContainer :=
  { c with towers := fun k => if k = key then some e else c.towers k }

/-- The two accumulators `recovery_energy` and `recoverTower` of one call. -/
structure Stats where
  recovery_energy : ℚ
  recoverTower : Int
  deriving DecidableEq

/-- The members of the module that `process_event` reads. -/
structure Module where
  m_calibTowers : RawTowerContainer
  m_geometry : RawTowerGeomContainer
  m_deadTowerMap : Option RawTowerDeadMap

/-! ## The algorithm -/

/-- The static table `neighborIndexs`: the eight offsets, in source order. -/
def neighborIndexs : List (Int × Int) :=
  [(1, 0), (1, 1), (0, 1), (-1, 1), (-1, 0), (-1, -1), (0, -1), (1, -1)]

/-- Lines 123-129: offset the dead tower's bins, then the four single-step corrections.  The
sums are taken over the integers; see `wrapNeighbor32` for the 32-bit arithmetic. -/
def wrapNeighbor (eta_bins phi_bins bineta binphi : Int) (neighborIndex : Int × Int) :
    Int × Int :=
  let ieta := bineta + neighborIndex.1
  let iphi := binphi + neighborIndex.2
  let ieta := if ieta ≥ eta_bins then ieta - eta_bins else ieta
  let iphi := if iphi ≥ phi_bins then iphi - phi_bins else iphi
  let ieta := if ieta < 0 then ieta + eta_bins else ieta
  let iphi := if iphi < 0 then iphi + phi_bins else iphi
  (ieta, iphi)

/-- The four assertions after the wrap (lines 131-134). -/
def wrapAsserts (eta_bins phi_bins : Int) (c : Int × Int) : Prop :=
  0 ≤ c.1 ∧ c.1 ≤ eta_bins ∧ 0 ≤ c.2 ∧ c.2 ≤ phi_bins

instance (eta_bins phi_bins : Int) (c : Int × Int) : Decidable (wrapAsserts eta_bins phi_bins c) := by
  unfold wrapAsserts; infer_instance

/-- The loop over `neighborIndexs` (lines 121-151), threading `(n_neighbor, E_SumNeighbor)`. -/
def neighborLoop (eta_bins phi_bins : Int) (dm : RawTowerDeadMap) (calib : RawTowerContainer)
    (bineta binphi : Int) : List (Int × Int) → Int × ℚ → Except Fatal (Int × ℚ)
  | [], acc => .ok acc
  | neighborIndex :: rest, (n_neighbor, E_SumNeighbor) =>
    let c := wrapNeighbor eta_bins phi_bins bineta binphi neighborIndex
    if wrapAsserts eta_bins phi_bins c then
      if dm.isDeadTower c.1 c.2 then
        neighborLoop eta_bins phi_bins dm calib bineta binphi rest (n_neighbor, E_SumNeighbor)
      else
        match calib.getTower c.1 c.2 with
        | none =>
          neighborLoop eta_bins phi_bins dm calib bineta binphi rest (n_neighbor, E_SumNeighbor)
        | some energy =>
          neighborLoop eta_bins phi_bins dm calib bineta binphi rest
            (n_neighbor + 1, E_SumNeighbor + energy)
    else .error .assertFailed

/-- Body of the loop over the dead towers (lines 91-182) for one `key`. -/
def processTower (geo : RawTowerGeomContainer) (dm : RawTowerDeadMap)
    (st : RawTowerContainer × Stats) (key : keytype) : Except Fatal (RawTowerContainer × Stats) :=
  match geo.get_tower_geometry key with
  | none => .error (.invalidDeadTower key)
  | some (bineta, binphi) =>
    if 0 ≤ bineta ∧ bineta ≤ geo.get_etabins ∧ 0 ≤ binphi ∧ binphi ≤ geo.get_phibins then
      match neighborLoop geo.get_etabins geo.get_phibins dm st.1 bineta binphi
          neighborIndexs (0, 0) with
      | .error f => .error f
      | .ok (n_neighbor, E_SumNeighbor) =>
        if n_neighbor > 0 then
          let energy := E_SumNeighbor / (n_neighbor : ℚ)
          .ok (st.1.AddTower key energy,
            { recovery_energy := st.2.recovery_energy + energy,
              recoverTower := st.2.recoverTower + 1 })
        else .ok st
    else .error .assertFailed

/-- The loop over `getDeadTowers()` (line 81), in enumeration order. -/
def towerLoop (geo : RawTowerGeomContainer) (dm : RawTowerDeadMap) :
    List keytype → RawTowerContainer × Stats → Except Fatal (RawTowerContainer × Stats)
  | [], st => .ok st
  | key :: rest, st =>
    match processTower geo dm st key with
    | .error f => .error f
    | .ok st1 => towerLoop geo dm rest st1

/-- One call of `process_event`: the return code, the store afterwards and the two
accumulators, or the way the call died. -/
def process_event (m : Module) :
    Except Fatal (Fun4AllReturnCodes × RawTowerContainer × Stats) :=
  match m.m_deadTowerMap with
  | some dm =>
    if 0 < m.m_geometry.get_etabins ∧ 0 < m.m_geometry.get_phibins then
      match towerLoop m.m_geometry dm dm.getDeadTowers
          (m.m_calibTowers, { recovery_energy := 0, recoverTower := 0 }) with
      | .error f => .error f
      | .ok (calib, stats) => .ok (.EVENT_OK, calib, stats)
    else .error .assertFailed
  | none => .ok (.EVENT_OK, m.m_calibTowers, { recovery_energy := 0, recoverTower := 0 })

/-! ## Vocabulary of the specification -/

/-- The eight wrapped neighbour coordinates of a cell, in enumeration order. -/
def neighborCoords (eta_bins phi_bins bineta binphi : Int) : List (Int × Int) :=
  neighborIndexs.map (wrapNeighbor eta_bins phi_bins bineta binphi)

/-- A neighbour coordinate is usable when it is not flagged dead and the store has a value there;
this yields that value. -/
def usableEnergy (isDeadTower : Int → Int → Bool) (calib : RawTowerContainer) (c : Int × Int) :
    Option ℚ :=
  if isDeadTower c.1 c.2 then none else calib.getTower c.1 c.2

/-- Values `v_1..v_k` of the usable neighbours among the given coordinates. -/
def usableEnergies (isDeadTower : Int → Int → Bool) (calib : RawTowerContainer)
    (coords : List (Int × Int)) : List ℚ :=
  coords.filterMap (usableEnergy isDeadTower calib)

/-- A resolved coordinate passes the validation assertions (lines 110-113). -/
def validBins (geo : RawTowerGeomContainer) (bineta binphi : Int) : Prop :=
  0 ≤ bineta ∧ bineta ≤ geo.get_etabins ∧ 0 ≤ binphi ∧ binphi ≤ geo.get_phibins

/-- What one dead tower does to the store and the accumulators, in terms of the usable values
of its wrapped neighbourhood. -/
def towerEffect (isDeadTower : Int → Int → Bool) (eta_bins phi_bins bineta binphi : Int)
    (st : RawTowerContainer × Stats) (key : keytype) : RawTowerContainer × Stats :=
  let vs := usableEnergies isDeadTower st.1 (neighborCoords eta_bins phi_bins bineta binphi)
  if vs = [] then st
  else
    (st.1.AddTower key (vs.sum / (vs.length : ℚ)),
      { recovery_energy := st.2.recovery_energy + vs.sum / (vs.length : ℚ),
        recoverTower := st.2.recoverTower + 1 })

/-- Value a dead tower gets from the store `calib` alone: the mean of the usable values of its
wrapped neighbourhood, `none` when the id does not resolve or no neighbour is usable. -/
def recoveredFrom (geo : RawTowerGeomContainer) (isDeadTower : Int → Int → Bool)
    (calib : RawTowerContainer) (key : keytype) : Option ℚ :=
  match geo.get_tower_geometry key with
  | none => none
  | some (bineta, binphi) =>
    let vs := usableEnergies isDeadTower calib
      (neighborCoords geo.get_etabins geo.get_phibins bineta binphi)
    if vs = [] then none else some (vs.sum / (vs.length : ℚ))

/-- Write a recovered value, if there is one, and account for it. -/
def applyRecovered (r : Option ℚ) (st : RawTowerContainer × Stats) (key : keytype) :
    RawTowerContainer × Stats :=
  match r with
  | none => st
  | some e =>
    (st.1.AddTower key e,
      { recovery_energy := st.2.recovery_energy + e, recoverTower := st.2.recoverTower + 1 })

/-- A coordinate lies on the grid. -/
def onGrid (geo : RawTowerGeomContainer) (c : Int × Int) : Prop :=
  0 ≤ c.1 ∧ c.1 < geo.get_etabins ∧ 0 ≤ c.2 ∧ c.2 < geo.get_phibins

/-- The dead flags are consistent with the dead set `dead` on the grid: bin counts are positive,
every dead id resolves to a coordinate on the grid, `isDeadTower` is true at that coordinate, and
`get_tower_geometry` undoes `cellAt` on the grid. -/
structure ConsistentFlags (geo : RawTowerGeomContainer) (isDeadTower : Int → Int → Bool)
    (cellAt : Int → Int → keytype) (dead : List keytype) : Prop where
  eta_pos : 0 < geo.get_etabins
  phi_pos : 0 < geo.get_phibins
  resolves : ∀ k ∈ dead, ∃ c, geo.get_tower_geometry k = some c ∧ onGrid geo c
  flagged : ∀ k ∈ dead, ∀ c, geo.get_tower_geometry k = some c → isDeadTower c.1 c.2 = true
  coordOf_cellAt : ∀ c, onGrid geo c → geo.get_tower_geometry (cellAt c.1 c.2) = some c

/-- Outcome of a whole call on the dead towers `order`, reduced to store and accumulators. -/
def runOrder (geo : RawTowerGeomContainer) (isDeadTower : Int → Int → Bool)
    (calib : RawTowerContainer) (order : List keytype) :
    Except Fatal (Fun4AllReturnCodes × RawTowerContainer × Stats) :=
  process_event
    { m_calibTowers := calib, m_geometry := geo,
      m_deadTowerMap := some { getDeadTowers := order, isDeadTower := isDeadTower } }

/-- Two dead-set towers `A` and `B`, grid neighbours of each other on a grid whose ids and
coordinates correspond, with `B` flagged dead and `A` flagged as `flagA` says, such that the
entry of `B` after processing `A` before `B` differs from the one after processing `B` before
`A`. -/
def OrderChangesValue (flagA : Bool) (geo : RawTowerGeomContainer)
    (isDeadTower : Int → Int → Bool) (calib : RawTowerContainer) (A B : keytype) : Prop :=
  ∃ cA cB : Int × Int,
    geo.get_tower_geometry A = some cA ∧ geo.get_tower_geometry B = some cB ∧
    onGrid geo cA ∧ onGrid geo cB ∧
    (∀ c, onGrid geo c → geo.get_tower_geometry (calib.encode_towerid c.1 c.2) = some c) ∧
    cA ∈ neighborCoords geo.get_etabins geo.get_phibins cB.1 cB.2 ∧
    cB ∈ neighborCoords geo.get_etabins geo.get_phibins cA.1 cA.2 ∧
    isDeadTower cA.1 cA.2 = flagA ∧ isDeadTower cB.1 cB.2 = true ∧
    ∃ rAB rBA,
      runOrder geo isDeadTower calib [A, B] = .ok rAB ∧
      runOrder geo isDeadTower calib [B, A] = .ok rBA ∧
      rAB.2.1.towers B ≠ rBA.2.1.towers B

/-! ## The concrete 4 x 4 scenario -/

/-- Tower id of the cell `(e, p)` on the 4 x 4 scenario grid. -/
def cell4 (e p : Int) : keytype := (4 * e + p).toNat

/-- Geometry of the 4 x 4 scenario grid: ids `0..15` resolve, row-major. -/
def grid4 : RawTowerGeomContainer :=
  { get_etabins := 4
    get_phibins := 4
    get_tower_geometry := fun k =>
      if k < 16 then some (((k / 4 : Nat) : Int), ((k % 4 : Nat) : Int)) else none }

/-- Live values `(1,1):10, (1,2):20, (2,1):30` of the scenario. -/
def scenarioStore : RawTowerContainer :=
  { encode_towerid := cell4
    towers := fun k =>
      if k = 5 then some 10 else if k = 6 then some 20 else if k = 9 then some 30 else none }

/-- Dead map of the first scenario: only `(2,2)` is dead. -/
def scenarioDeadMap : RawTowerDeadMap :=
  { getDeadTowers := [10]
    isDeadTower := fun e p => decide (e = 2 ∧ p = 2) }

/-- Dead map of the second scenario: only `(0,0)` is dead. -/
def cornerDeadMap : RawTowerDeadMap :=
  { getDeadTowers := [0]
    isDeadTower := fun e p => decide (e = 0 ∧ p = 0) }

/-- The scenario store without the entry at `(1,1)`. -/
def storeWithout11 : RawTowerContainer :=
  { encode_towerid := cell4
    towers := fun k => if k = 6 then some 20 else if k = 9 then some 30 else none }

/-- Flags of the mutual-neighbour scenario with both `(1,1)` and `(1,2)` flagged dead. -/
def bothFlagged : Int → Int → Bool := fun e p => decide (e = 1 ∧ (p = 1 ∨ p = 2))

/-- Flags of the mutual-neighbour scenario in which only `(1,2)` is flagged dead. -/
def onlyBFlagged : Int → Int → Bool := fun e p => decide (e = 1 ∧ p = 2)

/-- Live values `(0,0):10, (0,3):30` of the mutual-neighbour scenario. -/
def mutualStore : RawTowerContainer :=
  { encode_towerid := cell4
    towers := fun k => if k = 0 then some 10 else if k = 3 then some 30 else none }

/-- Dead map of the mutual-neighbour scenario: `(1,1)` and `(1,2)` dead and both flagged. -/
def mutualDeadMap : RawTowerDeadMap :=
  { getDeadTowers := [5, 6]
    isDeadTower := bothFlagged }

/-- The module state of the first scenario. -/
def scenarioModule : Module :=
  { m_calibTowers := scenarioStore, m_geometry := grid4, m_deadTowerMap := some scenarioDeadMap }

/-- The module state of the second scenario, on the live values of the first. -/
def cornerModule : Module :=
  { m_calibTowers := scenarioStore, m_geometry := grid4, m_deadTowerMap := some cornerDeadMap }

/-- The neighbour of a cell by true modulo, in the words of the specification: each axis is
offset and reduced to its non-negative remainder. -/
def moduloNeighbor (eta_bins phi_bins bineta binphi : Int) (neighborIndex : Int × Int) :
    Int × Int :=
  ((bineta + neighborIndex.1) % eta_bins, (binphi + neighborIndex.2) % phi_bins)

/-- The store of the mutual-neighbour scenario with a value placed at the flagged cell
`(1,1)`. -/
def mutualStoreWithFlagged : RawTowerContainer := mutualStore.AddTower 5 77

/-- Geometry of a 2 x 4 grid, ids `0..7` row-major. -/
def grid24 : RawTowerGeomContainer :=
  { get_etabins := 2
    get_phibins := 4
    get_tower_geometry := fun k =>
      if k < 8 then some (((k / 4 : Nat) : Int), ((k % 4 : Nat) : Int)) else none }

/-- Live values `(1,1):30, (0,2):0` on the 2 x 4 grid. -/
def store24 : RawTowerContainer :=
  { encode_towerid := cell4
    towers := fun k => if k = 5 then some 30 else if k = 2 then some 0 else none }

/-- Dead map of the 2 x 4 scenario: only `(0,1)` is dead. -/
def deadMap24 : RawTowerDeadMap :=
  { getDeadTowers := [1]
    isDeadTower := fun e p => decide (e = 0 ∧ p = 1) }

/-- The module state of the mutual-neighbour scenario with both cells flagged. -/
def mutualModule : Module :=
  { m_calibTowers := mutualStore, m_geometry := grid4, m_deadTowerMap := some mutualDeadMap }

/-! ## The wrap step in 32-bit arithmetic -/

theorem wrapAsserts_of_valid (eta_bins phi_bins bineta binphi : Int)
    (hE : 0 < eta_bins) (hP : 0 < phi_bins)
    (hb : 0 ≤ bineta ∧ bineta ≤ eta_bins) (hq : 0 ≤ binphi ∧ binphi ≤ phi_bins)
    (d : Int × Int) (hd : d ∈ neighborIndexs) :
    wrapAsserts eta_bins phi_bins (wrapNeighbor eta_bins phi_bins bineta binphi d) := by
  simp only [neighborIndexs, List.mem_cons, List.mem_singleton, List.not_mem_nil, or_false] at hd
  rcases hd with rfl | rfl | rfl | rfl | rfl | rfl | rfl | rfl <;>
    (simp only [wrapNeighbor, wrapAsserts]; split_ifs <;> omega)

/-- With the post-wrap assertions holding along the way, the neighbour loop adds the number
and the sum of the usable values to its accumulators. -/
theorem neighborLoop_eq (eta_bins phi_bins : Int) (dm : RawTowerDeadMap)
    (calib : RawTowerContainer) (bineta binphi : Int) :
    ∀ (ds : List (Int × Int)) (n : Int) (s : ℚ),
      (∀ d ∈ ds, wrapAsserts eta_bins phi_bins (wrapNeighbor eta_bins phi_bins bineta binphi d)) →
      neighborLoop eta_bins phi_bins dm calib bineta binphi ds (n, s) =
        .ok (n + ((usableEnergies dm.isDeadTower calib
                (ds.map (wrapNeighbor eta_bins phi_bins bineta binphi))).length : Int),
             s + (usableEnergies dm.isDeadTower calib
                (ds.map (wrapNeighbor eta_bins phi_bins bineta binphi))).sum) := by
  intro ds
  induction ds with
  | nil => intro n s _; simp [neighborLoop, usableEnergies]
  | cons d rest ih =>
    intro n s h
    have hd := h d (List.mem_cons_self d rest)
    have hrest : ∀ x ∈ rest, wrapAsserts eta_bins phi_bins
        (wrapNeighbor eta_bins phi_bins bineta binphi x) :=
      fun x hx => h x (List.mem_cons_of_mem d hx)
    simp only [neighborLoop, hd, if_true]
    by_cases hdead : dm.isDeadTower (wrapNeighbor eta_bins phi_bins bineta binphi d).1
        (wrapNeighbor eta_bins phi_bins bineta binphi d).2 = true
    · simp [hdead, ih n s hrest, usableEnergies, usableEnergy, List.filterMap_cons]
    · cases hget : calib.getTower (wrapNeighbor eta_bins phi_bins bineta binphi d).1
          (wrapNeighbor eta_bins phi_bins bineta binphi d).2 with
      | none => simp [hdead, hget, ih n s hrest, usableEnergies, usableEnergy, List.filterMap_cons]
      | some e =>
        simp [hdead, hget, ih (n + 1) (s + e) hrest, usableEnergies, usableEnergy,
          List.filterMap_cons]
        constructor <;> ring

theorem processTower_eq (geo : RawTowerGeomContainer) (dm : RawTowerDeadMap)
    (st : RawTowerContainer × Stats) (key : keytype) (bineta binphi : Int)
    (hE : 0 < geo.get_etabins) (hP : 0 < geo.get_phibins)
    (hgeo : geo.get_tower_geometry key = some (bineta, binphi))
    (hvalid : validBins geo bineta binphi) :
    processTower geo dm st key =
      .ok (towerEffect dm.isDeadTower geo.get_etabins geo.get_phibins bineta binphi st key) := by
  have hv : 0 ≤ bineta ∧ bineta ≤ geo.get_etabins ∧ 0 ≤ binphi ∧ binphi ≤ geo.get_phibins :=
    hvalid
  have hloop := neighborLoop_eq geo.get_etabins geo.get_phibins dm st.1 bineta binphi
    neighborIndexs 0 0
    (wrapAsserts_of_valid _ _ _ _ hE hP ⟨hv.1, hv.2.1⟩ ⟨hv.2.2.1, hv.2.2.2⟩)
  simp only [processTower, hgeo, hv, and_self, if_true, hloop, towerEffect, neighborCoords]
  cases hvs : usableEnergies dm.isDeadTower st.1
      (List.map (wrapNeighbor geo.get_etabins geo.get_phibins bineta binphi) neighborIndexs) with
  | nil => simp
  | cons v vs =>
    have hpos : (0 : Int) < 0 + ((v :: vs).length : Int) := by
      simp only [List.length_cons]; omega
    simp only [gt_iff_lt, hpos, if_true, reduceCtorEq, if_false]
    simp

/-- The wrapped neighbours of a cell on the grid are on the grid. -/
theorem wrapNeighbor_onGrid (geo : RawTowerGeomContainer) (c : Int × Int) (hc : onGrid geo c)
    (d : Int × Int) (hd : d ∈ neighborIndexs) :
    onGrid geo (wrapNeighbor geo.get_etabins geo.get_phibins c.1 c.2 d) := by
  obtain ⟨h1, h2, h3, h4⟩ := hc
  simp only [neighborIndexs, List.mem_cons, List.mem_singleton, List.not_mem_nil, or_false] at hd
  rcases hd with rfl | rfl | rfl | rfl | rfl | rfl | rfl | rfl <;>
    (simp only [wrapNeighbor, onGrid]; split_ifs <;> omega)

theorem validBins_of_onGrid (geo : RawTowerGeomContainer) (c : Int × Int) (hc : onGrid geo c) :
    validBins geo c.1 c.2 := by
  obtain ⟨h1, h2, h3, h4⟩ := hc
  exact ⟨h1, le_of_lt h2, h3, le_of_lt h4⟩

/-- A store that differs from `calib0` only at dead ids shows the same usable value at every
coordinate of the grid, because a coordinate whose id is dead is flagged dead. -/
theorem usableEnergy_agree (geo : RawTowerGeomContainer) (dm : RawTowerDeadMap)
    (calib0 c : RawTowerContainer) (dead : List keytype)
    (hcons : ConsistentFlags geo dm.isDeadTower calib0.encode_towerid dead)
    (henc : c.encode_towerid = calib0.encode_towerid)
    (hagree : ∀ k, k ∉ dead → c.towers k = calib0.towers k)
    (cn : Int × Int) (hcn : onGrid geo cn) :
    usableEnergy dm.isDeadTower c cn = usableEnergy dm.isDeadTower calib0 cn := by
  unfold usableEnergy
  by_cases hflag : dm.isDeadTower cn.1 cn.2 = true
  · simp [hflag]
  · simp only [hflag, if_false, RawTowerContainer.getTower, henc]
    apply hagree
    intro hmem
    exact hflag (hcons.flagged _ hmem cn (hcons.coordOf_cellAt cn hcn))

theorem recoveredFrom_agree (geo : RawTowerGeomContainer) (dm : RawTowerDeadMap)
    (calib0 c : RawTowerContainer) (dead : List keytype)
    (hcons : ConsistentFlags geo dm.isDeadTower calib0.encode_towerid dead)
    (henc : c.encode_towerid = calib0.encode_towerid)
    (hagree : ∀ k, k ∉ dead → c.towers k = calib0.towers k)
    (key : keytype) (hkey : key ∈ dead) :
    recoveredFrom geo dm.isDeadTower c key = recoveredFrom geo dm.isDeadTower calib0 key := by
  obtain ⟨cd, hres, hgrid⟩ := hcons.resolves key hkey
  obtain ⟨b, q⟩ := cd
  have hus : usableEnergies dm.isDeadTower c (neighborCoords geo.get_etabins geo.get_phibins b q) =
      usableEnergies dm.isDeadTower calib0 (neighborCoords geo.get_etabins geo.get_phibins b q) := by
    unfold usableEnergies neighborCoords
    apply List.filterMap_congr
    intro cn hcn
    obtain ⟨d, hd, rfl⟩ := List.mem_map.mp hcn
    exact usableEnergy_agree geo dm calib0 c dead hcons henc hagree _
      (wrapNeighbor_onGrid geo (b, q) hgrid d hd)
  simp only [recoveredFrom, hres, hus]

theorem towerEffect_eq_applyRecovered (geo : RawTowerGeomContainer) (dm : RawTowerDeadMap)
    (st : RawTowerContainer × Stats) (key : keytype) (b q : Int)
    (hgeo : geo.get_tower_geometry key = some (b, q)) :
    towerEffect dm.isDeadTower geo.get_etabins geo.get_phibins b q st key =
      applyRecovered (recoveredFrom geo dm.isDeadTower st.1 key) st key := by
  simp only [towerEffect, recoveredFrom, hgeo]
  split_ifs <;> simp [applyRecovered]

/-- Under consistent flags the loop over any list of dead ids is a fold of the values computed
from the initial store. -/
theorem towerLoop_eq_foldl (geo : RawTowerGeomContainer) (dm : RawTowerDeadMap)
    (calib0 : RawTowerContainer) (dead : List keytype)
    (hcons : ConsistentFlags geo dm.isDeadTower calib0.encode_towerid dead) :
    ∀ (keys : List keytype) (st : RawTowerContainer × Stats),
      (∀ k ∈ keys, k ∈ dead) →
      st.1.encode_towerid = calib0.encode_towerid →
      (∀ k, k ∉ dead → st.1.towers k = calib0.towers k) →
      towerLoop geo dm keys st =
        .ok (keys.foldl (fun s k => applyRecovered (recoveredFrom geo dm.isDeadTower calib0 k) s k) st) := by
  intro keys
  induction keys with
  | nil => intro st _ _ _; simp [towerLoop]
  | cons key rest ih =>
    intro st hsub henc hagree
    have hkey : key ∈ dead := hsub key (List.mem_cons_self key rest)
    obtain ⟨cd, hres, hgrid⟩ := hcons.resolves key hkey
    obtain ⟨b, q⟩ := cd
    have hp := processTower_eq geo dm st key b q hcons.eta_pos hcons.phi_pos hres
      (validBins_of_onGrid geo (b, q) hgrid)
    rw [towerEffect_eq_applyRecovered geo dm st key b q hres,
      recoveredFrom_agree geo dm calib0 st.1 dead hcons henc hagree key hkey] at hp
    simp only [towerLoop, hp, List.foldl_cons]
    apply ih
    · exact fun k hk => hsub k (List.mem_cons_of_mem key hk)
    · cases recoveredFrom geo dm.isDeadTower calib0 key <;> simp [applyRecovered, henc,
        RawTowerContainer.AddTower]
    · intro k hk
      cases recoveredFrom geo dm.isDeadTower calib0 key with
      | none => simpa [applyRecovered] using hagree k hk
      | some e =>
        have hne : k ≠ key := fun h => hk (h ▸ hkey)
        simpa [applyRecovered, RawTowerContainer.AddTower, hne] using hagree k hk

/-- Store entries after folding recovered values over a list of ids. -/
theorem foldl_applyRecovered_towers (r : keytype → Option ℚ) :
    ∀ (keys : List keytype) (st : RawTowerContainer × Stats) (k : keytype),
      (keys.foldl (fun s k => applyRecovered (r k) s k) st).1.towers k =
        if k ∈ keys then (match r k with | some e => some e | none => st.1.towers k)
        else st.1.towers k := by
  intro keys
  induction keys with
  | nil => intro st k; simp
  | cons key rest ih =>
    intro st k
    rw [List.foldl_cons, ih]
    by_cases hk : k = key
    · subst hk
      cases hr : r k with
      | none => simp [applyRecovered, hr]
      | some e => simp [applyRecovered, hr, RawTowerContainer.AddTower]
    · have h1 : (applyRecovered (r key) st key).1.towers k = st.1.towers k := by
        cases r key <;> simp [applyRecovered, RawTowerContainer.AddTower, hk]
      simp only [List.mem_cons, hk, false_or, h1]

theorem foldl_applyRecovered_encode (r : keytype → Option ℚ) :
    ∀ (keys : List keytype) (st : RawTowerContainer × Stats),
      (keys.foldl (fun s k => applyRecovered (r k) s k) st).1.encode_towerid =
        st.1.encode_towerid := by
  intro keys
  induction keys with
  | nil => intro st; simp
  | cons key rest ih =>
    intro st
    rw [List.foldl_cons, ih]
    cases r key <;> simp [applyRecovered, RawTowerContainer.AddTower]

/-- Accumulators after folding recovered values over a list of ids. -/
theorem foldl_applyRecovered_stats (r : keytype → Option ℚ) :
    ∀ (keys : List keytype) (st : RawTowerContainer × Stats),
      (keys.foldl (fun s k => applyRecovered (r k) s k) st).2.recoverTower =
          st.2.recoverTower + ((keys.filterMap r).length : Int) ∧
      (keys.foldl (fun s k => applyRecovered (r k) s k) st).2.recovery_energy =
          st.2.recovery_energy + (keys.filterMap r).sum := by
  intro keys
  induction keys with
  | nil => intro st; simp
  | cons key rest ih =>
    intro st
    rw [List.foldl_cons]
    obtain ⟨h1, h2⟩ := ih (applyRecovered (r key) st key)
    rw [h1, h2]
    cases hr : r key with
    | none => simp [applyRecovered, List.filterMap_cons, hr]
    | some e =>
      simp only [applyRecovered, List.filterMap_cons, hr, List.length_cons, List.sum_cons]
      constructor
      · push_cast; ring
      · ring

/-- Under consistent flags a whole call over any enumeration of the dead set returns, with the
store entries and accumulators determined by the initial store. -/
theorem runOrder_eq (geo : RawTowerGeomContainer) (isDeadTower : Int → Int → Bool)
    (calib : RawTowerContainer) (dead order : List keytype)
    (hcons : ConsistentFlags geo isDeadTower calib.encode_towerid dead)
    (hsub : ∀ k, k ∈ order ↔ k ∈ dead) :
    ∃ calib1 stats1,
      runOrder geo isDeadTower calib order = .ok (.EVENT_OK, calib1, stats1) ∧
      calib1.encode_towerid = calib.encode_towerid ∧
      (∀ k, calib1.towers k =
        if k ∈ dead then
          (match recoveredFrom geo isDeadTower calib k with
            | some e => some e
            | none => calib.towers k)
        else calib.towers k) ∧
      stats1.recoverTower =
        (((order.filterMap (recoveredFrom geo isDeadTower calib)).length : Nat) : Int) ∧
      stats1.recovery_energy = (order.filterMap (recoveredFrom geo isDeadTower calib)).sum := by
  have hloop := towerLoop_eq_foldl geo { getDeadTowers := order, isDeadTower := isDeadTower }
    calib dead hcons order (calib, { recovery_energy := 0, recoverTower := 0 })
    (fun k hk => (hsub k).mp hk) rfl (fun _ _ => rfl)
  refine ⟨(order.foldl (fun s k => applyRecovered (recoveredFrom geo isDeadTower calib k) s k)
      (calib, { recovery_energy := 0, recoverTower := 0 })).1,
    (order.foldl (fun s k => applyRecovered (recoveredFrom geo isDeadTower calib k) s k)
      (calib, { recovery_energy := 0, recoverTower := 0 })).2, ?_, ?_, ?_, ?_, ?_⟩
  · simp only [runOrder, process_event, hcons.eta_pos, hcons.phi_pos, and_self, if_true, hloop]
  · exact foldl_applyRecovered_encode _ _ _
  · intro k
    rw [foldl_applyRecovered_towers]
    simp only [hsub]
  · rw [(foldl_applyRecovered_stats _ _ _).1]; simp
  · rw [(foldl_applyRecovered_stats _ _ _).2]; simp

/-- On the scenario grid `get_tower_geometry` undoes `cell4`. -/
theorem grid4_coordOf_cellAt (c : Int × Int) (hc : onGrid grid4 c) :
    grid4.get_tower_geometry (cell4 c.1 c.2) = some c := by
  obtain ⟨e, p⟩ := c
  obtain ⟨h1, h2, h3, h4⟩ := hc
  simp only [grid4] at h2 h4
  simp only at h1 h3
  interval_cases e <;> interval_cases p <;> decide

theorem grid4_consistent_bothFlagged :
    ConsistentFlags grid4 bothFlagged mutualStore.encode_towerid [5, 6] where
  eta_pos := by decide
  phi_pos := by decide
  resolves := by
    intro k hk
    simp only [List.mem_cons, List.mem_singleton, List.not_mem_nil, or_false] at hk
    rcases hk with rfl | rfl
    · exact ⟨(1, 1), by decide, by unfold onGrid; decide⟩
    · exact ⟨(1, 2), by decide, by unfold onGrid; decide⟩
  flagged := by
    intro k hk c hc
    simp only [List.mem_cons, List.mem_singleton, List.not_mem_nil, or_false] at hk
    rcases hk with rfl | rfl
    · have : c = (1, 1) := by
        have h : grid4.get_tower_geometry 5 = some (1, 1) := by decide
        rw [h] at hc; exact (Option.some.inj hc).symm
      subst this; decide
    · have : c = (1, 2) := by
        have h : grid4.get_tower_geometry 6 = some (1, 2) := by decide
        rw [h] at hc; exact (Option.some.inj hc).symm
      subst this; decide
  coordOf_cellAt := grid4_coordOf_cellAt

/-- With both mutual neighbours flagged dead on a grid whose ids and coordinates correspond,
the two processing orders leave the same entry for `B`. -/
theorem orderChangesValue_flagged_false (geo : RawTowerGeomContainer)
    (isDeadTower : Int → Int → Bool) (calib : RawTowerContainer) (A B : keytype) :
    ¬ OrderChangesValue true geo isDeadTower calib A B := by
  rintro ⟨cA, cB, hA, hB, gA, gB, hinv, _, _, fA, fB, rAB, rBA, h1, h2, hne⟩
  have hcons : ConsistentFlags geo isDeadTower calib.encode_towerid [A, B] :=
    { eta_pos := lt_of_le_of_lt gA.1 gA.2.1
      phi_pos := lt_of_le_of_lt gA.2.2.1 gA.2.2.2
      resolves := by
        intro k hk
        simp only [List.mem_cons, List.mem_singleton, List.not_mem_nil, or_false] at hk
        rcases hk with rfl | rfl
        · exact ⟨cA, hA, gA⟩
        · exact ⟨cB, hB, gB⟩
      flagged := by
        intro k hk c hc
        simp only [List.mem_cons, List.mem_singleton, List.not_mem_nil, or_false] at hk
        rcases hk with rfl | rfl
        · rw [hA] at hc; cases hc; exact fA
        · rw [hB] at hc; cases hc; exact fB
      coordOf_cellAt := hinv }
  obtain ⟨c1, s1, e1, _, t1, _, _⟩ :=
    runOrder_eq geo isDeadTower calib [A, B] [A, B] hcons (fun _ => Iff.rfl)
  obtain ⟨c2, s2, e2, _, t2, _, _⟩ :=
    runOrder_eq geo isDeadTower calib [A, B] [B, A] hcons
      (fun k => by simp only [List.mem_cons, List.mem_singleton, List.not_mem_nil, or_false]
                   exact Or.comm)
  rw [e1] at h1
  rw [e2] at h2
  cases h1
  cases h2
  exact hne ((t1 B).trans (t2 B).symm)

/-- Evaluation rule: a resolved, valid dead tower with usable values `vs` of mean `e`. -/
theorem processTower_recovers (geo : RawTowerGeomContainer) (dm : RawTowerDeadMap)
    (st : RawTowerContainer × Stats) (key : keytype) (b q : Int) (vs : List ℚ) (e : ℚ)
    (hE : 0 < geo.get_etabins) (hP : 0 < geo.get_phibins)
    (hgeo : geo.get_tower_geometry key = some (b, q)) (hvalid : validBins geo b q)
    (hvs : usableEnergies dm.isDeadTower st.1
      (neighborCoords geo.get_etabins geo.get_phibins b q) = vs)
    (hne : vs ≠ []) (he : vs.sum / (vs.length : ℚ) = e) :
    processTower geo dm st key =
      .ok (st.1.AddTower key e,
        { recovery_energy := st.2.recovery_energy + e, recoverTower := st.2.recoverTower + 1 }) := by
  rw [processTower_eq geo dm st key b q hE hP hgeo hvalid]
  simp [towerEffect, hvs, hne, he]

/-- Evaluation rule: a resolved, valid dead tower without usable values. -/
theorem processTower_skips (geo : RawTowerGeomContainer) (dm : RawTowerDeadMap)
    (st : RawTowerContainer × Stats) (key : keytype) (b q : Int)
    (hE : 0 < geo.get_etabins) (hP : 0 < geo.get_phibins)
    (hgeo : geo.get_tower_geometry key = some (b, q)) (hvalid : validBins geo b q)
    (hvs : usableEnergies dm.isDeadTower st.1
      (neighborCoords geo.get_etabins geo.get_phibins b q) = []) :
    processTower geo dm st key = .ok st := by
  rw [processTower_eq geo dm st key b q hE hP hgeo hvalid]
  simp [towerEffect, hvs]

/-- The first scenario, evaluated. -/
theorem scenario_processTower (stats : Stats) :
    processTower grid4 scenarioDeadMap (scenarioStore, stats) 10 =
      .ok (scenarioStore.AddTower 10 20,
        { recovery_energy := stats.recovery_energy + 20,
          recoverTower := stats.recoverTower + 1 }) :=
  have hvs : usableEnergies scenarioDeadMap.isDeadTower scenarioStore
      (neighborCoords 4 4 2 2) = [20, 10, 30] := by decide
  processTower_recovers grid4 scenarioDeadMap (scenarioStore, stats) 10 2 2 [20, 10, 30] 20
    (by decide) (by decide) (by decide) (by unfold validBins; decide) hvs (by simp)
    (by norm_num)

/-- The corner cell of the second scenario on the store of the first, evaluated. -/
theorem corner_processTower (stats : Stats) :
    processTower grid4 cornerDeadMap (scenarioStore, stats) 0 =
      .ok (scenarioStore.AddTower 0 10,
        { recovery_energy := stats.recovery_energy + 10,
          recoverTower := stats.recoverTower + 1 }) :=
  have hvs : usableEnergies cornerDeadMap.isDeadTower scenarioStore
      (neighborCoords 4 4 0 0) = [10] := by decide
  processTower_recovers grid4 cornerDeadMap (scenarioStore, stats) 0 0 0 [10] 10
    (by decide) (by decide) (by decide) (by unfold validBins; decide) hvs (by simp)
    (by norm_num)

/-- Mutual neighbours with only `B = (1,2)` flagged: `A = (1,1)` first, then `B`. -/
theorem mutual_run_AB :
    runOrder grid4 onlyBFlagged mutualStore [5, 6] =
      .ok (.EVENT_OK, (mutualStore.AddTower 5 10).AddTower 6 20,
        { recovery_energy := 30, recoverTower := 2 }) := by
  have s1 := processTower_recovers grid4 { getDeadTowers := [5, 6], isDeadTower := onlyBFlagged }
    (mutualStore, { recovery_energy := 0, recoverTower := 0 }) 5 1 1 [10] 10
    (by decide) (by decide) (by decide) (by unfold validBins; decide) (by decide) (by simp)
    (by norm_num)
  have s2 := processTower_recovers grid4 { getDeadTowers := [5, 6], isDeadTower := onlyBFlagged }
    (mutualStore.AddTower 5 10, { recovery_energy := 0 + 10, recoverTower := 0 + 1 }) 6 1 2
    [30, 10] 20
    (by decide) (by decide) (by decide) (by unfold validBins; decide) (by decide) (by simp)
    (by norm_num)
  have hpos : 0 < grid4.get_etabins ∧ 0 < grid4.get_phibins := by decide
  simp only [runOrder, process_event, hpos, if_true, towerLoop, s1, s2]
  norm_num

/-- Mutual neighbours with only `B = (1,2)` flagged: `B` first, then `A = (1,1)`. -/
theorem mutual_run_BA :
    runOrder grid4 onlyBFlagged mutualStore [6, 5] =
      .ok (.EVENT_OK, (mutualStore.AddTower 6 30).AddTower 5 10,
        { recovery_energy := 40, recoverTower := 2 }) := by
  have s1 := processTower_recovers grid4 { getDeadTowers := [6, 5], isDeadTower := onlyBFlagged }
    (mutualStore, { recovery_energy := 0, recoverTower := 0 }) 6 1 2 [30] 30
    (by decide) (by decide) (by decide) (by unfold validBins; decide) (by decide) (by simp)
    (by norm_num)
  have s2 := processTower_recovers grid4 { getDeadTowers := [6, 5], isDeadTower := onlyBFlagged }
    (mutualStore.AddTower 6 30, { recovery_energy := 0 + 30, recoverTower := 0 + 1 }) 5 1 1
    [10] 10
    (by decide) (by decide) (by decide) (by unfold validBins; decide) (by decide) (by simp)
    (by norm_num)
  have hpos : 0 < grid4.get_etabins ∧ 0 < grid4.get_phibins := by decide
  simp only [runOrder, process_event, hpos, if_true, towerLoop, s1, s2]
  norm_num

/-! ## Claims -/

/-- C3: on a grid with both bin counts above one the wrap is exact at the four edges: `(0, p)`
has the neighbour `(etaBins-1, p)` from offset `(-1,0)`, `(etaBins-1, p)` has `(0, p)` from
offset `(+1,0)`, and likewise `(e, 0)` and `(e, phiBins-1)` on the phi axis. -/
theorem wrap_exact_at_edges (eta_bins phi_bins : Int) (hE : 1 < eta_bins) (hP : 1 < phi_bins) :
    (∀ p : Int, 0 ≤ p → p < phi_bins →
      (wrapNeighbor eta_bins phi_bins 0 p (-1, 0) = (eta_bins - 1, p) ∧
        (eta_bins - 1, p) ∈ neighborCoords eta_bins phi_bins 0 p) ∧
      (wrapNeighbor eta_bins phi_bins (eta_bins - 1) p (1, 0) = (0, p) ∧
        (0, p) ∈ neighborCoords eta_bins phi_bins (eta_bins - 1) p)) ∧
    (∀ e : Int, 0 ≤ e → e < eta_bins →
      (wrapNeighbor eta_bins phi_bins e 0 (0, -1) = (e, phi_bins - 1) ∧
        (e, phi_bins - 1) ∈ neighborCoords eta_bins phi_bins e 0) ∧
      (wrapNeighbor eta_bins phi_bins e (phi_bins - 1) (0, 1) = (e, 0) ∧
        (e, 0) ∈ neighborCoords eta_bins phi_bins e (phi_bins - 1))) := by
  have hmem : ∀ (b q : Int) (d : Int × Int), d ∈ neighborIndexs →
      wrapNeighbor eta_bins phi_bins b q d ∈ neighborCoords eta_bins phi_bins b q :=
    fun b q d hd => List.mem_map_of_mem _ hd
  refine ⟨fun p hp0 hp1 => ?_, fun e he0 he1 => ?_⟩
  · have h1 : wrapNeighbor eta_bins phi_bins 0 p (-1, 0) = (eta_bins - 1, p) := by
      simp only [wrapNeighbor]; split_ifs <;> first | omega | (simp; try omega)
    have h2 : wrapNeighbor eta_bins phi_bins (eta_bins - 1) p (1, 0) = (0, p) := by
      simp only [wrapNeighbor]; split_ifs <;> first | omega | (simp; try omega)
    refine ⟨⟨h1, ?_⟩, ⟨h2, ?_⟩⟩
    · rw [← h1]; exact hmem _ _ _ (by simp [neighborIndexs])
    · rw [← h2]; exact hmem _ _ _ (by simp [neighborIndexs])
  · have h1 : wrapNeighbor eta_bins phi_bins e 0 (0, -1) = (e, phi_bins - 1) := by
      simp only [wrapNeighbor]; split_ifs <;> first | omega | (simp; try omega)
    have h2 : wrapNeighbor eta_bins phi_bins e (phi_bins - 1) (0, 1) = (e, 0) := by
      simp only [wrapNeighbor]; split_ifs <;> first | omega | (simp; try omega)
    refine ⟨⟨h1, ?_⟩, ⟨h2, ?_⟩⟩
    · rw [← h1]; exact hmem _ _ _ (by simp [neighborIndexs])
    · rw [← h2]; exact hmem _ _ _ (by simp [neighborIndexs])

theorem wrap_exact_at_edges_witness :
    (1 : Int) < 4 ∧ (1 : Int) < 5 ∧
      wrapNeighbor 4 5 0 2 (-1, 0) = (4 - 1, 2) ∧ wrapNeighbor 4 5 (4 - 1) 2 (1, 0) = (0, 2) ∧
      wrapNeighbor 4 5 3 0 (0, -1) = (3, 5 - 1) ∧ wrapNeighbor 4 5 3 (5 - 1) (0, 1) = (3, 0) :=
  ⟨by decide, by decide,
    ((wrap_exact_at_edges 4 5 (by decide) (by decide)).1 2 (by decide) (by decide)).1.1,
    ((wrap_exact_at_edges 4 5 (by decide) (by decide)).1 2 (by decide) (by decide)).2.1,
    ((wrap_exact_at_edges 4 5 (by decide) (by decide)).2 3 (by decide) (by decide)).1.1,
    ((wrap_exact_at_edges 4 5 (by decide) (by decide)).2 3 (by decide) (by decide)).2.1⟩

/-- C5: without a dead map the call interpolates nothing, whatever the store and the geometry:
the store is returned as it was, both accumulators are zero and the return code is
`EVENT_OK`. -/
theorem no_dead_map_does_nothing (calib : RawTowerContainer) (geo : RawTowerGeomContainer) :
    process_event { m_calibTowers := calib, m_geometry := geo, m_deadTowerMap := none } =
      .ok (.EVENT_OK, calib, { recovery_energy := 0, recoverTower := 0 }) := by
  simp [process_event]

/-- C6: with a dead map that lists no tower, on any grid with positive bin counts, the call
returns the store it was given and the statistics `(0, 0)`. -/
theorem empty_dead_set_does_nothing (calib : RawTowerContainer) (geo : RawTowerGeomContainer)
    (isDeadTower : Int → Int → Bool)
    (hE : 0 < geo.get_etabins) (hP : 0 < geo.get_phibins) :
    process_event
        { m_calibTowers := calib, m_geometry := geo,
          m_deadTowerMap := some { getDeadTowers := [], isDeadTower := isDeadTower } } =
      .ok (.EVENT_OK, calib, { recovery_energy := 0, recoverTower := 0 }) := by
  simp [process_event, hE, hP, towerLoop]

theorem empty_dead_set_does_nothing_witness :
    process_event
        { m_calibTowers := scenarioStore, m_geometry := grid4,
          m_deadTowerMap := some { getDeadTowers := [], isDeadTower := bothFlagged } } =
      .ok (.EVENT_OK, scenarioStore, { recovery_energy := 0, recoverTower := 0 }) :=
  empty_dead_set_does_nothing scenarioStore grid4 bothFlagged (by decide) (by decide)

/-- C7: when `isDeadTower` is true at the coordinate of every dead-set member and the geometry
undoes `cellAt` on the grid, every enumeration order of the dead set makes the call return, and
the entry of each dead cell afterwards is the value computed from the initial store alone (the
mean of its usable neighbours there, or its old entry when none is usable); cells outside the
dead set keep their entries and the accumulators are those of the initial store as well. -/
theorem recovered_value_independent_of_order (geo : RawTowerGeomContainer)
    (dm : RawTowerDeadMap) (calib : RawTowerContainer)
    (hcons : ConsistentFlags geo dm.isDeadTower calib.encode_towerid dm.getDeadTowers)
    (order : List keytype) (hperm : order.Perm dm.getDeadTowers) :
    ∃ calib1 stats1,
      runOrder geo dm.isDeadTower calib order = .ok (.EVENT_OK, calib1, stats1) ∧
      (∀ k ∈ dm.getDeadTowers, calib1.towers k =
        match recoveredFrom geo dm.isDeadTower calib k with
        | some e => some e
        | none => calib.towers k) ∧
      (∀ k, k ∉ dm.getDeadTowers → calib1.towers k = calib.towers k) ∧
      stats1.recoverTower =
        (((dm.getDeadTowers.filterMap (recoveredFrom geo dm.isDeadTower calib)).length : Nat) :
          Int) ∧
      stats1.recovery_energy =
        (dm.getDeadTowers.filterMap (recoveredFrom geo dm.isDeadTower calib)).sum := by
  obtain ⟨c1, s1, e1, _, t1, n1, r1⟩ :=
    runOrder_eq geo dm.isDeadTower calib dm.getDeadTowers order hcons (fun _ => hperm.mem_iff)
  refine ⟨c1, s1, e1, ?_, ?_, ?_, ?_⟩
  · intro k hk
    rw [t1 k, if_pos hk]
  · intro k hk
    rw [t1 k, if_neg hk]
  · rw [n1, (hperm.filterMap _).length_eq]
  · rw [r1, (hperm.filterMap _).sum_eq]

theorem recovered_value_independent_of_order_witness :
    ConsistentFlags grid4 mutualDeadMap.isDeadTower mutualStore.encode_towerid
        mutualDeadMap.getDeadTowers ∧
      [6, 5].Perm mutualDeadMap.getDeadTowers ∧
      ∃ calib1 stats1,
        runOrder grid4 mutualDeadMap.isDeadTower mutualStore [6, 5] =
          .ok (.EVENT_OK, calib1, stats1) ∧
        (∀ k ∈ mutualDeadMap.getDeadTowers, calib1.towers k =
          match recoveredFrom grid4 mutualDeadMap.isDeadTower mutualStore k with
          | some e => some e
          | none => mutualStore.towers k) ∧
        (∀ k, k ∉ mutualDeadMap.getDeadTowers → calib1.towers k = mutualStore.towers k) ∧
        stats1.recoverTower =
          (((mutualDeadMap.getDeadTowers.filterMap
            (recoveredFrom grid4 mutualDeadMap.isDeadTower mutualStore)).length : Nat) : Int) ∧
        stats1.recovery_energy =
          (mutualDeadMap.getDeadTowers.filterMap
            (recoveredFrom grid4 mutualDeadMap.isDeadTower mutualStore)).sum :=
  ⟨grid4_consistent_bothFlagged, List.Perm.swap 5 6 [],
    recovered_value_independent_of_order grid4 mutualDeadMap mutualStore
      grid4_consistent_bothFlagged [6, 5] (List.Perm.swap 5 6 [])⟩

/-- C8 as stated is false: there are no grid with corresponding ids and coordinates, store and
two dead-set towers, grid neighbours of each other and both flagged dead by `isDeadTower`, for
which processing `A` before `B` and `B` before `A` leave different entries for `B`. -/
theorem flagged_mutual_neighbours_never_order_dependent :
    ¬ ∃ (geo : RawTowerGeomContainer) (isDeadTower : Int → Int → Bool)
        (calib : RawTowerContainer) (A B : keytype),
        OrderChangesValue true geo isDeadTower calib A B := by
  rintro ⟨geo, isDeadTower, calib, A, B, h⟩
  exact orderChangesValue_flagged_false geo isDeadTower calib A B h

/-- C8, amended: the order matters for mutual neighbours only through a dead-set tower that
`isDeadTower` does not flag.  On the 4 x 4 grid with live values `(0,0):10, (0,3):30` and the
dead set `{A = (1,1), B = (1,2)}` with only `B` flagged, `B` gets `20` when `A` goes first (it
reads the `10` just written for `A`) and `30` when `B` goes first; with both flagged the entry
of `B` is the same in both orders, for every grid, store and pair. -/
theorem unflagged_dead_neighbour_makes_order_matter :
    (OrderChangesValue false grid4 onlyBFlagged mutualStore 5 6 ∧
      (∃ c s, runOrder grid4 onlyBFlagged mutualStore [5, 6] = .ok (.EVENT_OK, c, s) ∧
        c.towers 5 = some 10 ∧ c.towers 6 = some 20) ∧
      (∃ c s, runOrder grid4 onlyBFlagged mutualStore [6, 5] = .ok (.EVENT_OK, c, s) ∧
        c.towers 5 = some 10 ∧ c.towers 6 = some 30)) ∧
    (∀ (geo : RawTowerGeomContainer) (isDeadTower : Int → Int → Bool)
        (calib : RawTowerContainer) (A B : keytype),
        ¬ OrderChangesValue true geo isDeadTower calib A B) := by
  refine ⟨⟨?_, ?_, ?_⟩, orderChangesValue_flagged_false⟩
  · refine ⟨(1, 1), (1, 2), by decide, by decide, by unfold onGrid; decide,
      by unfold onGrid; decide, grid4_coordOf_cellAt, by decide, by decide, by decide,
      by decide, _, _, mutual_run_AB, mutual_run_BA, ?_⟩
    simp [RawTowerContainer.AddTower]
  · exact ⟨_, _, mutual_run_AB, by simp [RawTowerContainer.AddTower],
      by simp [RawTowerContainer.AddTower]⟩
  · exact ⟨_, _, mutual_run_BA, by simp [RawTowerContainer.AddTower],
      by simp [RawTowerContainer.AddTower]⟩

/-- C9: on the 4 x 4 grid with store `(1,1):10, (1,2):20, (2,1):30` and dead set `{(2,2)}` (only
`(2,2)` flagged, no entry for it), the wrapped neighbours are enumerated as
`(3,2),(3,3),(2,3),(1,3),(1,2),(1,1),(2,1),(3,1)`, exactly three of them are usable (values
`20, 10, 30`), and the call returns the store with `(2,2)` mapped to `20`, every other entry
unchanged, and the statistics `(20, 1)`. -/
theorem scenario_dead_cell_22 :
    grid4.get_tower_geometry 10 = some (2, 2) ∧ cell4 2 2 = 10 ∧
    scenarioStore.getTower 2 2 = none ∧
    neighborCoords grid4.get_etabins grid4.get_phibins 2 2 =
      [(3, 2), (3, 3), (2, 3), (1, 3), (1, 2), (1, 1), (2, 1), (3, 1)] ∧
    usableEnergies scenarioDeadMap.isDeadTower scenarioStore
      (neighborCoords grid4.get_etabins grid4.get_phibins 2 2) = [20, 10, 30] ∧
    ∃ calib1,
      process_event scenarioModule =
        .ok (.EVENT_OK, calib1, { recovery_energy := 20, recoverTower := 1 }) ∧
      calib1.getTower 2 2 = some 20 ∧
      calib1.getTower 1 1 = some 10 ∧ calib1.getTower 1 2 = some 20 ∧
      calib1.getTower 2 1 = some 30 ∧
      ∀ k, k ≠ 10 → calib1.towers k = scenarioStore.towers k := by
  refine ⟨by decide, by decide, by decide, by decide, by decide,
    scenarioStore.AddTower 10 20, ?_, by decide, by decide, by decide, by decide, ?_⟩
  · have hpos : 0 < grid4.get_etabins ∧ 0 < grid4.get_phibins := by decide
    have hdead : scenarioDeadMap.getDeadTowers = [10] := rfl
    simp only [process_event, scenarioModule, hpos, if_true, hdead, towerLoop,
      scenario_processTower]
    norm_num
  · intro k hk
    simp [RawTowerContainer.AddTower, hk]

/-- C10 as stated is false: with the live values `(1,1):10, (1,2):20, (2,1):30` kept, the dead
cell `(0,0)` has the live neighbour `(1,1)` (offset `(+1,+1)`), so the call writes `10` at
`(0,0)` and returns the statistics `(10, 1)`, not an unchanged store and `(0, 0)`. -/
theorem corner_cell_has_live_neighbour :
    grid4.get_tower_geometry 0 = some (0, 0) ∧
    (1, 1) ∈ neighborCoords grid4.get_etabins grid4.get_phibins 0 0 ∧
    usableEnergies cornerDeadMap.isDeadTower scenarioStore
      (neighborCoords grid4.get_etabins grid4.get_phibins 0 0) = [10] ∧
    process_event cornerModule =
      .ok (.EVENT_OK, scenarioStore.AddTower 0 10, { recovery_energy := 10, recoverTower := 1 }) ∧
    (scenarioStore.AddTower 0 10).towers 0 ≠ scenarioStore.towers 0 ∧
    ¬ (usableEnergies cornerDeadMap.isDeadTower scenarioStore
          (neighborCoords grid4.get_etabins grid4.get_phibins 0 0) = [] ∧
        process_event cornerModule =
          .ok (.EVENT_OK, scenarioStore, { recovery_energy := 0, recoverTower := 0 })) := by
  have hrun : process_event cornerModule =
      .ok (.EVENT_OK, scenarioStore.AddTower 0 10,
        { recovery_energy := 10, recoverTower := 1 }) := by
    have hpos : 0 < grid4.get_etabins ∧ 0 < grid4.get_phibins := by decide
    have hdead : cornerDeadMap.getDeadTowers = [0] := rfl
    simp only [process_event, cornerModule, hpos, if_true, hdead, towerLoop,
      corner_processTower]
    norm_num
  refine ⟨by decide, by decide, by decide, hrun, by decide, ?_⟩
  rintro ⟨h, _⟩
  revert h
  decide

/-- C10, amended: on the 4 x 4 grid with the live values `(1,1):10, (1,2):20, (2,1):30` the dead
cell `(0,0)` has exactly one usable neighbour, `(1,1)` with value `10`, so processing it writes
`10` at `(0,0)` and contributes `(10, 1)` to the statistics; once `(1,1)` is absent from the
store (live values `(1,2):20, (2,1):30`) no wrapped neighbour is usable, the store is unchanged
and the contribution is `(0, 0)`. -/
theorem corner_cell_scenario_amended :
    neighborCoords grid4.get_etabins grid4.get_phibins 0 0 =
      [(1, 0), (1, 1), (0, 1), (3, 1), (3, 0), (3, 3), (0, 3), (1, 3)] ∧
    usableEnergies cornerDeadMap.isDeadTower scenarioStore
      (neighborCoords grid4.get_etabins grid4.get_phibins 0 0) = [10] ∧
    (∀ stats : Stats,
      processTower grid4 cornerDeadMap (scenarioStore, stats) 0 =
        .ok (scenarioStore.AddTower 0 10,
          { recovery_energy := stats.recovery_energy + 10,
            recoverTower := stats.recoverTower + 1 })) ∧
    usableEnergies cornerDeadMap.isDeadTower storeWithout11
      (neighborCoords grid4.get_etabins grid4.get_phibins 0 0) = [] ∧
    (∀ stats : Stats,
      processTower grid4 cornerDeadMap (storeWithout11, stats) 0 = .ok (storeWithout11, stats)) := by
  refine ⟨by decide, by decide, corner_processTower, by decide, fun stats => ?_⟩
  have hvs : usableEnergies cornerDeadMap.isDeadTower storeWithout11
      (neighborCoords 4 4 0 0) = [] := by decide
  exact processTower_skips grid4 cornerDeadMap (storeWithout11, stats) 0 0 0
    (by decide) (by decide) (by decide) (by unfold validBins; decide) hvs

/-! ## Lemmas on calls that return -/

/-- A neighbour loop that returns passed the post-wrap assertions of every offset. -/
theorem neighborLoop_ok_asserts (eta_bins phi_bins : Int) (dm : RawTowerDeadMap)
    (calib : RawTowerContainer) (bineta binphi : Int) :
    ∀ (ds : List (Int × Int)) (acc r : Int × ℚ),
      neighborLoop eta_bins phi_bins dm calib bineta binphi ds acc = .ok r →
      ∀ d ∈ ds, wrapAsserts eta_bins phi_bins
        (wrapNeighbor eta_bins phi_bins bineta binphi d) := by
  intro ds
  induction ds with
  | nil => intro _ _ _ d hd; simp at hd
  | cons d0 rest ih =>
    intro acc r h d hd
    obtain ⟨n, e⟩ := acc
    simp only [neighborLoop] at h
    split_ifs at h with ha hdead
    · rcases List.mem_cons.mp hd with rfl | hd
      · exact ha
      · exact ih _ _ h d hd
    · rcases List.mem_cons.mp hd with rfl | hd
      · exact ha
      · split at h
        · exact ih _ _ h d hd
        · exact ih _ _ h d hd

/-- A dead tower whose processing returns had a resolved, validated coordinate, and the state
afterwards is `towerEffect` of the state before. -/
theorem processTower_ok (geo : RawTowerGeomContainer) (dm : RawTowerDeadMap)
    (st st1 : RawTowerContainer × Stats) (key : keytype)
    (h : processTower geo dm st key = .ok st1) :
    ∃ b q, geo.get_tower_geometry key = some (b, q) ∧ validBins geo b q ∧
      st1 = towerEffect dm.isDeadTower geo.get_etabins geo.get_phibins b q st key := by
  cases hg : geo.get_tower_geometry key with
  | none => simp [processTower, hg] at h
  | some c =>
    obtain ⟨b, q⟩ := c
    by_cases hv : 0 ≤ b ∧ b ≤ geo.get_etabins ∧ 0 ≤ q ∧ q ≤ geo.get_phibins
    · refine ⟨b, q, rfl, hv, ?_⟩
      cases hl : neighborLoop geo.get_etabins geo.get_phibins dm st.1 b q neighborIndexs (0, 0) with
      | error f =>
        simp only [processTower, hg, hv, and_self, if_true, hl] at h
        cases h
      | ok r =>
        have hloop := neighborLoop_eq geo.get_etabins geo.get_phibins dm st.1 b q
          neighborIndexs 0 0 (neighborLoop_ok_asserts _ _ _ _ _ _ _ _ _ hl)
        rw [hloop] at hl
        simp only [processTower, hg, hv, and_self, if_true, hloop] at h
        simp only [towerEffect, neighborCoords]
        cases hvs : usableEnergies dm.isDeadTower st.1
            (List.map (wrapNeighbor geo.get_etabins geo.get_phibins b q) neighborIndexs) with
        | nil =>
          simp only [hvs, List.length_nil, List.sum_nil] at h
          simp at h
          simp [h]
        | cons v vs =>
          have hpos : (0 : Int) < 0 + ((v :: vs).length : Int) := by
            simp only [List.length_cons]; omega
          simp only [hvs, gt_iff_lt, hpos, if_true] at h
          simp at h
          simp [← h]
    · simp [processTower, hg, hv] at h

/-- The state after one dead tower: the id of the container and the entries at other ids are
kept, no entry is removed, and a changed entry means the tower had a usable neighbour. -/
theorem towerEffect_frame (isDeadTower : Int → Int → Bool) (eta_bins phi_bins b q : Int)
    (st : RawTowerContainer × Stats) (key : keytype) :
    (towerEffect isDeadTower eta_bins phi_bins b q st key).1.encode_towerid =
        st.1.encode_towerid ∧
    (∀ k, k ≠ key →
      (towerEffect isDeadTower eta_bins phi_bins b q st key).1.towers k = st.1.towers k) ∧
    (∀ k, (st.1.towers k).isSome →
      ((towerEffect isDeadTower eta_bins phi_bins b q st key).1.towers k).isSome) ∧
    (∀ k, (towerEffect isDeadTower eta_bins phi_bins b q st key).1.towers k ≠ st.1.towers k →
      k = key ∧ usableEnergies isDeadTower st.1 (neighborCoords eta_bins phi_bins b q) ≠ []) := by
  unfold towerEffect
  by_cases hvs : usableEnergies isDeadTower st.1 (neighborCoords eta_bins phi_bins b q) = []
  · simp [hvs]
  · simp only [hvs, if_false, RawTowerContainer.AddTower]
    refine ⟨by trivial, ?_, ?_, ?_⟩
    · intro k hk; simp [hk]
    · intro k hk
      by_cases hkk : k = key
      · simp [hkk]
      · simpa [hkk] using hk
    · intro k hk
      by_cases hkk : k = key
      · exact ⟨hkk, fun h => hvs h⟩
      · simp [hkk] at hk

/-- Frame of the loop over the dead towers. -/
theorem towerLoop_frame (geo : RawTowerGeomContainer) (dm : RawTowerDeadMap) :
    ∀ (keys : List keytype) (st st1 : RawTowerContainer × Stats),
      towerLoop geo dm keys st = .ok st1 →
      st1.1.encode_towerid = st.1.encode_towerid ∧
      (∀ k, k ∉ keys → st1.1.towers k = st.1.towers k) ∧
      (∀ k, (st.1.towers k).isSome → (st1.1.towers k).isSome) ∧
      (∀ k, st1.1.towers k ≠ st.1.towers k →
        ∃ pre post stm b q, keys = pre ++ k :: post ∧
          towerLoop geo dm pre st = .ok stm ∧
          geo.get_tower_geometry k = some (b, q) ∧
          usableEnergies dm.isDeadTower stm.1
            (neighborCoords geo.get_etabins geo.get_phibins b q) ≠ []) := by
  intro keys
  induction keys with
  | nil =>
    intro st st1 h
    simp only [towerLoop] at h
    cases h
    exact ⟨rfl, fun _ _ => rfl, fun _ hk => hk, fun k hk => absurd rfl hk⟩
  | cons key rest ih =>
    intro st st1 h
    cases hp : processTower geo dm st key with
    | error f => simp [towerLoop, hp] at h
    | ok stp =>
      simp only [towerLoop, hp] at h
      obtain ⟨b, q, hg, _, hst⟩ := processTower_ok geo dm st stp key hp
      obtain ⟨e1, f1, p1, c1⟩ := towerEffect_frame dm.isDeadTower geo.get_etabins
        geo.get_phibins b q st key
      rw [← hst] at e1 f1 p1 c1
      obtain ⟨e2, f2, p2, c2⟩ := ih stp st1 h
      refine ⟨e2.trans e1, ?_, fun k hk => p2 k (p1 k hk), ?_⟩
      · intro k hk
        rw [List.mem_cons, not_or] at hk
        rw [f2 k hk.2, f1 k hk.1]
      · intro k hk
        by_cases hch : st1.1.towers k = stp.1.towers k
        · rw [hch] at hk
          obtain ⟨hkk, hus⟩ := c1 k hk
          subst hkk
          exact ⟨[], rest, st, b, q, rfl, rfl, hg, hus⟩
        · obtain ⟨pre, post, stm, b1, q1, hsplit, hrun, hg1, hus⟩ := c2 k hch
          refine ⟨key :: pre, post, stm, b1, q1, by simp [hsplit], ?_, hg1, hus⟩
          simp [towerLoop, hp, hrun]

/-- Two stores that agree at every unflagged coordinate of a list of offsets drive the
neighbour loop to the same result. -/
theorem neighborLoop_congr (eta_bins phi_bins : Int) (dm : RawTowerDeadMap)
    (calib1 calib2 : RawTowerContainer) (bineta binphi : Int) :
    ∀ (ds : List (Int × Int)) (acc : Int × ℚ),
      (∀ d ∈ ds,
        dm.isDeadTower (wrapNeighbor eta_bins phi_bins bineta binphi d).1
          (wrapNeighbor eta_bins phi_bins bineta binphi d).2 = false →
        calib1.getTower (wrapNeighbor eta_bins phi_bins bineta binphi d).1
          (wrapNeighbor eta_bins phi_bins bineta binphi d).2 =
        calib2.getTower (wrapNeighbor eta_bins phi_bins bineta binphi d).1
          (wrapNeighbor eta_bins phi_bins bineta binphi d).2) →
      neighborLoop eta_bins phi_bins dm calib1 bineta binphi ds acc =
        neighborLoop eta_bins phi_bins dm calib2 bineta binphi ds acc := by
  intro ds
  induction ds with
  | nil => intro acc _; simp [neighborLoop]
  | cons d rest ih =>
    intro acc h
    obtain ⟨n, e⟩ := acc
    have hrest := fun acc1 => ih acc1 (fun x hx => h x (List.mem_cons_of_mem d hx))
    simp only [neighborLoop]
    split_ifs with ha hdead
    · exact hrest _
    · have hflag : dm.isDeadTower (wrapNeighbor eta_bins phi_bins bineta binphi d).1
          (wrapNeighbor eta_bins phi_bins bineta binphi d).2 = false := by
        simpa using hdead
      rw [h d (List.mem_cons_self d rest) hflag]
      cases calib2.getTower (wrapNeighbor eta_bins phi_bins bineta binphi d).1
          (wrapNeighbor eta_bins phi_bins bineta binphi d).2 with
      | none => exact hrest _
      | some v => exact hrest _
    · rfl

/-- The same for the usable values. -/
theorem usableEnergies_congr (isDeadTower : Int → Int → Bool)
    (calib1 calib2 : RawTowerContainer) (coords : List (Int × Int))
    (h : ∀ c ∈ coords, isDeadTower c.1 c.2 = false →
      calib1.getTower c.1 c.2 = calib2.getTower c.1 c.2) :
    usableEnergies isDeadTower calib1 coords = usableEnergies isDeadTower calib2 coords := by
  unfold usableEnergies
  apply List.filterMap_congr
  intro c hc
  unfold usableEnergy
  by_cases hflag : isDeadTower c.1 c.2 = true
  · simp [hflag]
  · have hf : isDeadTower c.1 c.2 = false := by simpa using hflag
    simp [hf, h c hc hf]

/-- C11: both skip conditions are applied, each on its own.  A neighbour coordinate flagged
dead leaves count and sum as they are whatever the store holds there, so two stores that agree
on the unflagged coordinates of the neighbourhood give the same count, sum, usable values and
recovered value; a neighbour coordinate that is not flagged leaves count and sum as they are
when the store has no entry there. -/
theorem skip_conditions_independent (geo : RawTowerGeomContainer) (dm : RawTowerDeadMap)
    (bineta binphi : Int) :
    (∀ (calib : RawTowerContainer) (d : Int × Int) (rest : List (Int × Int)) (acc : Int × ℚ),
      wrapAsserts geo.get_etabins geo.get_phibins
        (wrapNeighbor geo.get_etabins geo.get_phibins bineta binphi d) →
      dm.isDeadTower (wrapNeighbor geo.get_etabins geo.get_phibins bineta binphi d).1
        (wrapNeighbor geo.get_etabins geo.get_phibins bineta binphi d).2 = true →
      neighborLoop geo.get_etabins geo.get_phibins dm calib bineta binphi (d :: rest) acc =
        neighborLoop geo.get_etabins geo.get_phibins dm calib bineta binphi rest acc) ∧
    (∀ (calib : RawTowerContainer) (d : Int × Int) (rest : List (Int × Int)) (acc : Int × ℚ),
      wrapAsserts geo.get_etabins geo.get_phibins
        (wrapNeighbor geo.get_etabins geo.get_phibins bineta binphi d) →
      dm.isDeadTower (wrapNeighbor geo.get_etabins geo.get_phibins bineta binphi d).1
        (wrapNeighbor geo.get_etabins geo.get_phibins bineta binphi d).2 = false →
      calib.getTower (wrapNeighbor geo.get_etabins geo.get_phibins bineta binphi d).1
        (wrapNeighbor geo.get_etabins geo.get_phibins bineta binphi d).2 = none →
      neighborLoop geo.get_etabins geo.get_phibins dm calib bineta binphi (d :: rest) acc =
        neighborLoop geo.get_etabins geo.get_phibins dm calib bineta binphi rest acc) ∧
    (∀ (calib1 calib2 : RawTowerContainer) (key : keytype),
      (∀ c ∈ neighborCoords geo.get_etabins geo.get_phibins bineta binphi,
        dm.isDeadTower c.1 c.2 = false → calib1.getTower c.1 c.2 = calib2.getTower c.1 c.2) →
      neighborLoop geo.get_etabins geo.get_phibins dm calib1 bineta binphi neighborIndexs (0, 0) =
        neighborLoop geo.get_etabins geo.get_phibins dm calib2 bineta binphi
          neighborIndexs (0, 0) ∧
      usableEnergies dm.isDeadTower calib1
          (neighborCoords geo.get_etabins geo.get_phibins bineta binphi) =
        usableEnergies dm.isDeadTower calib2
          (neighborCoords geo.get_etabins geo.get_phibins bineta binphi) ∧
      (geo.get_tower_geometry key = some (bineta, binphi) →
        recoveredFrom geo dm.isDeadTower calib1 key =
          recoveredFrom geo dm.isDeadTower calib2 key)) := by
  refine ⟨?_, ?_, ?_⟩
  · intro calib d rest acc ha hdead
    obtain ⟨n, e⟩ := acc
    simp only [neighborLoop, ha, hdead, if_true]
  · intro calib d rest acc ha hdead hnone
    obtain ⟨n, e⟩ := acc
    simp [neighborLoop, ha, hdead, hnone]
  · intro calib1 calib2 key h
    have hus := usableEnergies_congr dm.isDeadTower calib1 calib2 _ h
    refine ⟨?_, hus, ?_⟩
    · apply neighborLoop_congr
      intro d hd hflag
      exact h _ (List.mem_map_of_mem _ hd) hflag
    · intro hg
      simp only [recoveredFrom, hg, hus]

theorem skip_conditions_independent_witness :
    mutualDeadMap.isDeadTower 1 1 = true ∧
      mutualStore.getTower 1 1 = none ∧ mutualStoreWithFlagged.getTower 1 1 = some 77 ∧
      (1, 1) ∈ neighborCoords grid4.get_etabins grid4.get_phibins 1 2 ∧
      neighborLoop grid4.get_etabins grid4.get_phibins mutualDeadMap mutualStore 1 2
          neighborIndexs (0, 0) =
        neighborLoop grid4.get_etabins grid4.get_phibins mutualDeadMap mutualStoreWithFlagged 1 2
          neighborIndexs (0, 0) ∧
      recoveredFrom grid4 mutualDeadMap.isDeadTower mutualStore 6 =
        recoveredFrom grid4 mutualDeadMap.isDeadTower mutualStoreWithFlagged 6 :=
  ⟨by decide, by decide, by decide, by decide,
    ((skip_conditions_independent grid4 mutualDeadMap 1 2).2.2 mutualStore
      mutualStoreWithFlagged 6 (by decide)).1,
    ((skip_conditions_independent grid4 mutualDeadMap 1 2).2.2 mutualStore
      mutualStoreWithFlagged 6 (by decide)).2.2 (by decide)⟩

/-- C12: whenever the call returns, the store it leaves differs from the one it was given only
at ids of the dead set whose tower had at least one usable neighbour in the store as it was when
that tower was processed; the entry of every id outside the dead set, present or absent, is the
same before and after, and no entry is removed. -/
theorem store_frame (m : Module) (rc : Fun4AllReturnCodes) (calib1 : RawTowerContainer)
    (stats1 : Stats) (h : process_event m = .ok (rc, calib1, stats1)) :
    calib1.encode_towerid = m.m_calibTowers.encode_towerid ∧
    (∀ k, (∀ dm, m.m_deadTowerMap = some dm → k ∉ dm.getDeadTowers) →
      calib1.getTowerByKey k = m.m_calibTowers.getTowerByKey k) ∧
    (∀ k, (m.m_calibTowers.getTowerByKey k).isSome → (calib1.getTowerByKey k).isSome) ∧
    (∀ k, calib1.getTowerByKey k ≠ m.m_calibTowers.getTowerByKey k →
      ∃ dm pre post stm b q,
        m.m_deadTowerMap = some dm ∧ dm.getDeadTowers = pre ++ k :: post ∧
        towerLoop m.m_geometry dm pre
          (m.m_calibTowers, { recovery_energy := 0, recoverTower := 0 }) = .ok stm ∧
        m.m_geometry.get_tower_geometry k = some (b, q) ∧
        usableEnergies dm.isDeadTower stm.1
          (neighborCoords m.m_geometry.get_etabins m.m_geometry.get_phibins b q) ≠ []) := by
  cases hdm : m.m_deadTowerMap with
  | none =>
    simp only [process_event, hdm] at h
    cases h
    exact ⟨rfl, fun _ _ => rfl, fun _ hk => hk, fun k hk => absurd rfl hk⟩
  | some dm =>
    simp only [process_event, hdm] at h
    split_ifs at h with hpos
    cases hl : towerLoop m.m_geometry dm dm.getDeadTowers
        (m.m_calibTowers, { recovery_energy := 0, recoverTower := 0 }) with
    | error f => rw [hl] at h; cases h
    | ok st1 =>
      rw [hl] at h
      obtain ⟨c, s⟩ := st1
      cases h
      obtain ⟨e1, f1, p1, c1⟩ := towerLoop_frame m.m_geometry dm dm.getDeadTowers _ _ hl
      refine ⟨e1, fun k hk => f1 k (hk dm rfl), p1, ?_⟩
      intro k hk
      obtain ⟨pre, post, stm, b, q, hsplit, hrun, hg, hus⟩ := c1 k hk
      exact ⟨dm, pre, post, stm, b, q, rfl, hsplit, hrun, hg, hus⟩

theorem store_frame_witness :
    ∃ calib1,
      process_event scenarioModule =
        .ok (.EVENT_OK, calib1, { recovery_energy := 20, recoverTower := 1 }) ∧
      calib1.encode_towerid = scenarioModule.m_calibTowers.encode_towerid ∧
      (∀ k, (∀ dm, scenarioModule.m_deadTowerMap = some dm → k ∉ dm.getDeadTowers) →
        calib1.getTowerByKey k = scenarioModule.m_calibTowers.getTowerByKey k) ∧
      (∀ k, (scenarioModule.m_calibTowers.getTowerByKey k).isSome →
        (calib1.getTowerByKey k).isSome) :=
  have hrun : process_event scenarioModule =
      .ok (.EVENT_OK, scenarioStore.AddTower 10 20,
        { recovery_energy := 20, recoverTower := 1 }) := by
    have hpos : 0 < grid4.get_etabins ∧ 0 < grid4.get_phibins := by decide
    have hdead : scenarioDeadMap.getDeadTowers = [10] := rfl
    simp only [process_event, scenarioModule, hpos, if_true, hdead, towerLoop,
      scenario_processTower]
    norm_num
  ⟨scenarioStore.AddTower 10 20, hrun,
    (store_frame scenarioModule .EVENT_OK (scenarioStore.AddTower 10 20)
      { recovery_energy := 20, recoverTower := 1 } hrun).1,
    (store_frame scenarioModule .EVENT_OK (scenarioStore.AddTower 10 20)
      { recovery_energy := 20, recoverTower := 1 } hrun).2.1,
    (store_frame scenarioModule .EVENT_OK (scenarioStore.AddTower 10 20)
      { recovery_energy := 20, recoverTower := 1 } hrun).2.2.1⟩

/-- One axis of the wrap: for a positive bound and an index at most one step outside
`[0, bound)`, the single correction is the non-negative remainder. -/
theorem singleWrap_eq_emod (bound x : Int) (hB : 0 < bound) (h1 : -1 ≤ x) (h2 : x ≤ bound) :
    (if (if x ≥ bound then x - bound else x) < 0 then (if x ≥ bound then x - bound else x) + bound
      else (if x ≥ bound then x - bound else x)) = x % bound := by
  by_cases hx : x = bound
  · subst hx
    simp only [ge_iff_le, le_refl, if_true, sub_self, lt_self_iff_false, if_false,
      Int.emod_self]
  · by_cases hneg : x = -1
    · subst hneg
      have h3 : ¬ (-1 ≥ bound) := by omega
      have h4 : ((-1 : Int) + bound) % bound = (-1) % bound := Int.add_emod_self
      have h5 : ((-1 : Int) + bound) % bound = -1 + bound :=
        Int.emod_eq_of_lt (by omega) (by omega)
      simp only [h3, if_false, show ((-1 : Int) < 0) from by decide, if_true]
      rw [← h4, h5]
    · have h3 : ¬ (x ≥ bound) := by omega
      have h4 : ¬ (x < 0) := by omega
      simp only [h3, if_false, h4]
      exact (Int.emod_eq_of_lt (by omega) (by omega)).symm

/-- C15: on a cell of the grid the single-step wrap is the true modulo: for each of the eight
offsets the wrapped neighbour is `((bineta + de) mod etaBins, (binphi + dp) mod phiBins)` with
non-negative remainders, and so lies in `[0, etaBins) x [0, phiBins)`.  Positive bin counts
suffice, in particular bin counts above one. -/
theorem single_wrap_is_modulo (eta_bins phi_bins bineta binphi : Int)
    (hE : 0 < eta_bins) (hP : 0 < phi_bins)
    (hb : 0 ≤ bineta ∧ bineta < eta_bins) (hq : 0 ≤ binphi ∧ binphi < phi_bins)
    (d : Int × Int) (hd : d ∈ neighborIndexs) :
    wrapNeighbor eta_bins phi_bins bineta binphi d =
        moduloNeighbor eta_bins phi_bins bineta binphi d ∧
      0 ≤ (wrapNeighbor eta_bins phi_bins bineta binphi d).1 ∧
      (wrapNeighbor eta_bins phi_bins bineta binphi d).1 < eta_bins ∧
      0 ≤ (wrapNeighbor eta_bins phi_bins bineta binphi d).2 ∧
      (wrapNeighbor eta_bins phi_bins bineta binphi d).2 < phi_bins := by
  have hd1 : -1 ≤ d.1 ∧ d.1 ≤ 1 ∧ -1 ≤ d.2 ∧ d.2 ≤ 1 := by
    simp only [neighborIndexs, List.mem_cons, List.mem_singleton, List.not_mem_nil,
      or_false] at hd
    rcases hd with rfl | rfl | rfl | rfl | rfl | rfl | rfl | rfl <;> decide
  have heq : wrapNeighbor eta_bins phi_bins bineta binphi d =
      moduloNeighbor eta_bins phi_bins bineta binphi d := by
    simp only [wrapNeighbor, moduloNeighbor]
    rw [singleWrap_eq_emod eta_bins (bineta + d.1) hE (by omega) (by omega),
      singleWrap_eq_emod phi_bins (binphi + d.2) hP (by omega) (by omega)]
  refine ⟨heq, ?_⟩
  rw [heq]
  simp only [moduloNeighbor]
  exact ⟨Int.emod_nonneg _ (by omega), Int.emod_lt_of_pos _ hE,
    Int.emod_nonneg _ (by omega), Int.emod_lt_of_pos _ hP⟩

theorem single_wrap_is_modulo_witness :
    wrapNeighbor 4 5 0 4 (-1, 1) = moduloNeighbor 4 5 0 4 (-1, 1) ∧
      0 ≤ (wrapNeighbor 4 5 0 4 (-1, 1)).1 ∧ (wrapNeighbor 4 5 0 4 (-1, 1)).1 < 4 ∧
      0 ≤ (wrapNeighbor 4 5 0 4 (-1, 1)).2 ∧ (wrapNeighbor 4 5 0 4 (-1, 1)).2 < 5 :=
  single_wrap_is_modulo 4 5 0 4 (by decide) (by decide) (by decide) (by decide) (-1, 1)
    (by decide)

/-- The components of the eight offsets are `-1`, `0` or `1`. -/
theorem neighborIndexs_bounds (d : Int × Int) (hd : d ∈ neighborIndexs) :
    -1 ≤ d.1 ∧ d.1 ≤ 1 ∧ -1 ≤ d.2 ∧ d.2 ≤ 1 := by
  simp only [neighborIndexs, List.mem_cons, List.mem_singleton, List.not_mem_nil,
    or_false] at hd
  rcases hd with rfl | rfl | rfl | rfl | rfl | rfl | rfl | rfl <;> decide

/-- One axis with at least three bins: two offsets that wrap to the same index are equal. -/
theorem wrap_axis_injective (bound b x y : Int) (hB : 3 ≤ bound) (hb : 0 ≤ b ∧ b < bound)
    (hx : -1 ≤ x ∧ x ≤ 1) (hy : -1 ≤ y ∧ y ≤ 1)
    (h : (if (if b + x ≥ bound then b + x - bound else b + x) < 0
            then (if b + x ≥ bound then b + x - bound else b + x) + bound
            else (if b + x ≥ bound then b + x - bound else b + x)) =
         (if (if b + y ≥ bound then b + y - bound else b + y) < 0
            then (if b + y ≥ bound then b + y - bound else b + y) + bound
            else (if b + y ≥ bound then b + y - bound else b + y))) :
    x = y := by
  split_ifs at h <;> omega

/-- On a grid with at least three bins per axis the wrap is injective on offsets of magnitude
at most one. -/
theorem wrapNeighbor_injective (eta_bins phi_bins bineta binphi : Int)
    (hE : 3 ≤ eta_bins) (hP : 3 ≤ phi_bins)
    (hb : 0 ≤ bineta ∧ bineta < eta_bins) (hq : 0 ≤ binphi ∧ binphi < phi_bins)
    (d1 d2 : Int × Int)
    (h1 : -1 ≤ d1.1 ∧ d1.1 ≤ 1 ∧ -1 ≤ d1.2 ∧ d1.2 ≤ 1)
    (h2 : -1 ≤ d2.1 ∧ d2.1 ≤ 1 ∧ -1 ≤ d2.2 ∧ d2.2 ≤ 1)
    (h : wrapNeighbor eta_bins phi_bins bineta binphi d1 =
      wrapNeighbor eta_bins phi_bins bineta binphi d2) : d1 = d2 := by
  have hfst := congrArg Prod.fst h
  have hsnd := congrArg Prod.snd h
  simp only [wrapNeighbor] at hfst hsnd
  exact Prod.ext
    (wrap_axis_injective eta_bins bineta d1.1 d2.1 hE hb ⟨h1.1, h1.2.1⟩ ⟨h2.1, h2.2.1⟩ hfst)
    (wrap_axis_injective phi_bins binphi d1.2 d2.2 hP hq ⟨h1.2.2.1, h1.2.2.2⟩
      ⟨h2.2.2.1, h2.2.2.2⟩ hsnd)

/-- With two eta bins the offsets `(+1,0)` and `(-1,0)` wrap to the same coordinate. -/
theorem neighborCoords_dup_eta (phi_bins bineta binphi : Int)
    (hb : 0 ≤ bineta ∧ bineta < 2) : ¬ (neighborCoords 2 phi_bins bineta binphi).Nodup := by
  intro hn
  have heq : wrapNeighbor 2 phi_bins bineta binphi (1, 0) =
      wrapNeighbor 2 phi_bins bineta binphi (-1, 0) := by
    unfold wrapNeighbor
    refine Prod.ext ?_ rfl
    simp only
    split_ifs <;> omega
  simp only [neighborCoords, neighborIndexs, List.map_cons, List.nodup_cons] at hn
  apply hn.1
  rw [heq]
  simp

/-- With two phi bins the offsets `(0,+1)` and `(0,-1)` wrap to the same coordinate. -/
theorem neighborCoords_dup_phi (eta_bins bineta binphi : Int)
    (hq : 0 ≤ binphi ∧ binphi < 2) : ¬ (neighborCoords eta_bins 2 bineta binphi).Nodup := by
  intro hn
  have heq : wrapNeighbor eta_bins 2 bineta binphi (0, 1) =
      wrapNeighbor eta_bins 2 bineta binphi (0, -1) := by
    unfold wrapNeighbor
    refine Prod.ext rfl ?_
    simp only
    split_ifs <;> omega
  simp only [neighborCoords, neighborIndexs, List.map_cons, List.nodup_cons] at hn
  apply hn.2.2.1
  rw [heq]
  simp

/-- The 2 x 4 scenario, evaluated: the coordinate `(1,1)` is enumerated twice. -/
theorem grid24_processTower :
    processTower grid24 deadMap24 (store24, { recovery_energy := 0, recoverTower := 0 }) 1 =
      .ok (store24.AddTower 1 20, { recovery_energy := 0 + 20, recoverTower := 0 + 1 }) :=
  processTower_recovers grid24 deadMap24
    (store24, { recovery_energy := 0, recoverTower := 0 }) 1 0 1 [30, 0, 30] 20
    (by decide) (by decide) (by decide) (by unfold validBins; decide) (by decide) (by simp)
    (by norm_num)

/-- C17: with at least three bins on each axis the eight wrapped neighbour coordinates of a cell
of the grid are pairwise distinct and none is the cell itself; with two eta bins or two phi bins
some coordinate is enumerated twice, and its value enters sum and count twice: on the 2 x 4 grid
with live values `(1,1):30, (0,2):0` the dead cell `(0,1)` reads `30, 0, 30` and recovers `20`,
not the mean `15` of the two distinct cells. -/
theorem neighbours_distinct_from_three_bins (eta_bins phi_bins bineta binphi : Int) :
    (3 ≤ eta_bins → 3 ≤ phi_bins → 0 ≤ bineta → bineta < eta_bins → 0 ≤ binphi →
      binphi < phi_bins →
      (neighborCoords eta_bins phi_bins bineta binphi).Nodup ∧
      (bineta, binphi) ∉ neighborCoords eta_bins phi_bins bineta binphi) ∧
    (0 ≤ bineta → bineta < 2 → ¬ (neighborCoords 2 phi_bins bineta binphi).Nodup) ∧
    (0 ≤ binphi → binphi < 2 → ¬ (neighborCoords eta_bins 2 bineta binphi).Nodup) ∧
    (neighborCoords grid24.get_etabins grid24.get_phibins 0 1 =
        [(1, 1), (1, 2), (0, 2), (1, 2), (1, 1), (1, 0), (0, 0), (1, 0)] ∧
      usableEnergies deadMap24.isDeadTower store24
        (neighborCoords grid24.get_etabins grid24.get_phibins 0 1) = [30, 0, 30] ∧
      processTower grid24 deadMap24
        (store24, { recovery_energy := 0, recoverTower := 0 }) 1 =
          .ok (store24.AddTower 1 20, { recovery_energy := 0 + 20, recoverTower := 0 + 1 })) := by
  refine ⟨?_, ?_, ?_, by decide, by decide, grid24_processTower⟩
  · intro hE hP hb0 hb1 hq0 hq1
    constructor
    · unfold neighborCoords
      apply List.Nodup.map_on
      · intro d1 hd1 d2 hd2 h
        exact wrapNeighbor_injective eta_bins phi_bins bineta binphi hE hP ⟨hb0, hb1⟩
          ⟨hq0, hq1⟩ d1 d2 (neighborIndexs_bounds d1 hd1) (neighborIndexs_bounds d2 hd2) h
      · decide
    · intro hmem
      obtain ⟨d, hd, hdeq⟩ := List.mem_map.mp hmem
      have hself : wrapNeighbor eta_bins phi_bins bineta binphi (0, 0) = (bineta, binphi) := by
        unfold wrapNeighbor
        refine Prod.ext ?_ ?_ <;> (simp only; split_ifs <;> omega)
      have hd0 : d = (0, 0) :=
        wrapNeighbor_injective eta_bins phi_bins bineta binphi hE hP ⟨hb0, hb1⟩ ⟨hq0, hq1⟩
          d (0, 0) (neighborIndexs_bounds d hd) (by decide) (hdeq.trans hself.symm)
      subst hd0
      revert hd
      decide
  · intro h0 h1
    exact neighborCoords_dup_eta phi_bins bineta binphi ⟨h0, h1⟩
  · intro h0 h1
    exact neighborCoords_dup_phi eta_bins bineta binphi ⟨h0, h1⟩

theorem neighbours_distinct_from_three_bins_witness :
    (neighborCoords 4 3 3 0).Nodup ∧ (3, 0) ∉ neighborCoords 4 3 3 0 ∧
      ¬ (neighborCoords 2 3 1 0).Nodup ∧ ¬ (neighborCoords 4 2 3 1).Nodup :=
  ⟨((neighbours_distinct_from_three_bins 4 3 3 0).1 (by decide) (by decide) (by decide)
      (by decide) (by decide) (by decide)).1,
    ((neighbours_distinct_from_three_bins 4 3 3 0).1 (by decide) (by decide) (by decide)
      (by decide) (by decide) (by decide)).2,
    (neighbours_distinct_from_three_bins 4 3 1 0).2.1 (by decide) (by decide),
    (neighbours_distinct_from_three_bins 4 3 3 1).2.2.1 (by decide) (by decide)⟩

/-- C18: when `isDeadTower` is true at the coordinate of every dead-set member and the geometry
undoes `cellAt` on the grid, the call returns, and a second call on the store it left returns
the same store and the same accumulators. -/
theorem rerun_is_idempotent (geo : RawTowerGeomContainer) (dm : RawTowerDeadMap)
    (calib : RawTowerContainer)
    (hcons : ConsistentFlags geo dm.isDeadTower calib.encode_towerid dm.getDeadTowers) :
    ∃ calib1 stats1,
      process_event { m_calibTowers := calib, m_geometry := geo, m_deadTowerMap := some dm } =
        .ok (.EVENT_OK, calib1, stats1) ∧
      process_event { m_calibTowers := calib1, m_geometry := geo, m_deadTowerMap := some dm } =
        .ok (.EVENT_OK, calib1, stats1) := by
  obtain ⟨c1, s1, e1, henc1, t1, n1, r1⟩ :=
    runOrder_eq geo dm.isDeadTower calib dm.getDeadTowers dm.getDeadTowers hcons
      (fun _ => Iff.rfl)
  have hcons1 : ConsistentFlags geo dm.isDeadTower c1.encode_towerid dm.getDeadTowers := by
    rw [henc1]; exact hcons
  obtain ⟨c2, s2, e2, henc2, t2, n2, r2⟩ :=
    runOrder_eq geo dm.isDeadTower c1 dm.getDeadTowers dm.getDeadTowers hcons1
      (fun _ => Iff.rfl)
  have hrec : ∀ k ∈ dm.getDeadTowers,
      recoveredFrom geo dm.isDeadTower c1 k = recoveredFrom geo dm.isDeadTower calib k :=
    fun k hk => recoveredFrom_agree geo dm calib c1 dm.getDeadTowers hcons henc1
      (fun k1 hk1 => by rw [t1 k1, if_neg hk1]) k hk
  have hfm : dm.getDeadTowers.filterMap (recoveredFrom geo dm.isDeadTower c1) =
      dm.getDeadTowers.filterMap (recoveredFrom geo dm.isDeadTower calib) :=
    List.filterMap_congr hrec
  have hstore : c2 = c1 := by
    have htow : c2.towers = c1.towers := by
      funext k
      rw [t2 k]
      by_cases hk : k ∈ dm.getDeadTowers
      · rw [if_pos hk, hrec k hk]
        have h1 := t1 k
        rw [if_pos hk] at h1
        cases hr : recoveredFrom geo dm.isDeadTower calib k with
        | none => rfl
        | some e => rw [hr] at h1; exact h1.symm
      · rw [if_neg hk]
    cases c1
    cases c2
    simp only at henc2 htow
    rw [henc2, htow]
  have hstats : s2 = s1 := by
    cases s1
    cases s2
    simp only at n1 r1 n2 r2
    rw [hfm] at n2 r2
    rw [n1, r1, n2, r2]
  rw [hstore, hstats] at e2
  exact ⟨c1, s1, e1, e2⟩

theorem rerun_is_idempotent_witness :
    ∃ calib1 stats1,
      process_event mutualModule = .ok (.EVENT_OK, calib1, stats1) ∧
      process_event
          { m_calibTowers := calib1, m_geometry := grid4, m_deadTowerMap := some mutualDeadMap } =
        .ok (.EVENT_OK, calib1, stats1) :=
  rerun_is_idempotent grid4 mutualDeadMap mutualStore grid4_consistent_bothFlagged

/-! ## Bounds on the recovered value -/

/-- A usable value is the store entry at an unflagged coordinate of the list. -/
theorem usableEnergies_mem (isDeadTower : Int → Int → Bool) (calib : RawTowerContainer)
    (coords : List (Int × Int)) (v : ℚ) (hv : v ∈ usableEnergies isDeadTower calib coords) :
    ∃ c ∈ coords, isDeadTower c.1 c.2 = false ∧ calib.getTower c.1 c.2 = some v := by
  unfold usableEnergies at hv
  obtain ⟨c, hc, hcv⟩ := List.mem_filterMap.mp hv
  unfold usableEnergy at hcv
  by_cases hflag : isDeadTower c.1 c.2 = true
  · simp [hflag] at hcv
  · have hf : isDeadTower c.1 c.2 = false := by simpa using hflag
    simp only [hf, Bool.false_eq_true, if_false] at hcv
    exact ⟨c, hc, hf, hcv⟩

theorem sum_bounds (vs : List ℚ) (lo hi : ℚ) (h : ∀ v ∈ vs, lo ≤ v ∧ v ≤ hi) :
    lo * (vs.length : ℚ) ≤ vs.sum ∧ vs.sum ≤ hi * (vs.length : ℚ) := by
  induction vs with
  | nil => simp
  | cons v rest ih =>
    obtain ⟨h1, h2⟩ := ih (fun x hx => h x (List.mem_cons_of_mem v hx))
    obtain ⟨h3, h4⟩ := h v (List.mem_cons_self v rest)
    simp only [List.length_cons, List.sum_cons]
    push_cast
    constructor <;> linarith

/-- The mean of a non-empty list lies between any lower and any upper bound of its members. -/
theorem mean_bounds (vs : List ℚ) (lo hi : ℚ) (hne : vs ≠ [])
    (h : ∀ v ∈ vs, lo ≤ v ∧ v ≤ hi) :
    lo ≤ vs.sum / (vs.length : ℚ) ∧ vs.sum / (vs.length : ℚ) ≤ hi := by
  have hlen : (0 : ℚ) < (vs.length : ℚ) := by
    have : 0 < vs.length := List.length_pos.mpr hne
    exact_mod_cast this
  obtain ⟨h1, h2⟩ := sum_bounds vs lo hi h
  exact ⟨(le_div_iff₀ hlen).mpr h1, (div_le_iff₀ hlen).mpr h2⟩

/-- A non-empty list has a least and a greatest member. -/
theorem exists_min_max (vs : List ℚ) (hne : vs ≠ []) :
    ∃ vmin ∈ vs, ∃ vmax ∈ vs, ∀ v ∈ vs, vmin ≤ v ∧ v ≤ vmax := by
  induction vs with
  | nil => exact absurd rfl hne
  | cons v rest ih =>
    by_cases hrest : rest = []
    · subst hrest
      exact ⟨v, by simp, v, by simp, fun x hx => by simp at hx; subst hx; exact ⟨le_refl _, le_refl _⟩⟩
    · obtain ⟨a, ha, b, hb, hab⟩ := ih hrest
      refine ⟨min v a, ?_, max v b, ?_, ?_⟩
      · rcases min_choice v a with h | h
        · rw [h]; exact List.mem_cons_self v rest
        · rw [h]; exact List.mem_cons_of_mem v ha
      · rcases max_choice v b with h | h
        · rw [h]; exact List.mem_cons_self v rest
        · rw [h]; exact List.mem_cons_of_mem v hb
      · intro x hx
        rcases List.mem_cons.mp hx with rfl | hx
        · exact ⟨min_le_left _ _, le_max_left _ _⟩
        · exact ⟨le_trans (min_le_right _ _) (hab x hx).1,
            le_trans (hab x hx).2 (le_max_right _ _)⟩

/-- One dead tower keeps a store of non-negative values and a non-negative total so, and moves
the count up by at most one. -/
theorem towerEffect_bounds (isDeadTower : Int → Int → Bool) (eta_bins phi_bins b q : Int)
    (st : RawTowerContainer × Stats) (key : keytype) :
    ((∀ k v, st.1.towers k = some v → 0 ≤ v) → 0 ≤ st.2.recovery_energy →
      (∀ k v, (towerEffect isDeadTower eta_bins phi_bins b q st key).1.towers k = some v →
        0 ≤ v) ∧
      0 ≤ (towerEffect isDeadTower eta_bins phi_bins b q st key).2.recovery_energy) ∧
    st.2.recoverTower ≤ (towerEffect isDeadTower eta_bins phi_bins b q st key).2.recoverTower ∧
    (towerEffect isDeadTower eta_bins phi_bins b q st key).2.recoverTower ≤
      st.2.recoverTower + 1 := by
  unfold towerEffect
  by_cases hvs : usableEnergies isDeadTower st.1 (neighborCoords eta_bins phi_bins b q) = []
  · simp only [hvs, if_true]
    exact ⟨fun h1 h2 => ⟨h1, h2⟩, le_refl _, by omega⟩
  · simp only [hvs, if_false]
    refine ⟨?_, by omega, le_refl _⟩
    intro hstore htotal
    have hmean : 0 ≤ (usableEnergies isDeadTower st.1
        (neighborCoords eta_bins phi_bins b q)).sum /
        ((usableEnergies isDeadTower st.1
          (neighborCoords eta_bins phi_bins b q)).length : ℚ) := by
      apply div_nonneg
      · apply List.sum_nonneg
        intro v hv
        obtain ⟨c, _, _, hget⟩ := usableEnergies_mem isDeadTower st.1 _ v hv
        exact hstore _ v hget
      · exact Nat.cast_nonneg _
    constructor
    · intro k v hk
      simp only [RawTowerContainer.AddTower] at hk
      split_ifs at hk with hkk
      · cases hk; exact hmean
      · exact hstore k v hk
    · exact add_nonneg htotal hmean

/-- The loop over the dead towers keeps non-negativity and counts at most one per tower. -/
theorem towerLoop_bounds (geo : RawTowerGeomContainer) (dm : RawTowerDeadMap) :
    ∀ (keys : List keytype) (st st1 : RawTowerContainer × Stats),
      towerLoop geo dm keys st = .ok st1 →
      ((∀ k v, st.1.towers k = some v → 0 ≤ v) → 0 ≤ st.2.recovery_energy →
        (∀ k v, st1.1.towers k = some v → 0 ≤ v) ∧ 0 ≤ st1.2.recovery_energy) ∧
      st.2.recoverTower ≤ st1.2.recoverTower ∧
      st1.2.recoverTower ≤ st.2.recoverTower + (keys.length : Int) := by
  intro keys
  induction keys with
  | nil =>
    intro st st1 h
    simp only [towerLoop] at h
    cases h
    exact ⟨fun h1 h2 => ⟨h1, h2⟩, le_refl _, by simp⟩
  | cons key rest ih =>
    intro st st1 h
    cases hp : processTower geo dm st key with
    | error f => simp [towerLoop, hp] at h
    | ok stp =>
      simp only [towerLoop, hp] at h
      obtain ⟨b, q, _, _, hst⟩ := processTower_ok geo dm st stp key hp
      obtain ⟨n1, c1, c2⟩ := towerEffect_bounds dm.isDeadTower geo.get_etabins
        geo.get_phibins b q st key
      rw [← hst] at n1 c1 c2
      obtain ⟨n2, c3, c4⟩ := ih stp st1 h
      refine ⟨?_, le_trans c1 c3, ?_⟩
      · intro h1 h2
        obtain ⟨h3, h4⟩ := n1 h1 h2
        exact n2 h3 h4
      · simp only [List.length_cons]
        push_cast
        omega

/-- C19: the value written for a dead cell with at least one usable neighbour lies between the
minimum and the maximum of the usable neighbour values; and for every call that returns, if
every stored value was non-negative then every value in the store afterwards (so every
recovered value) and `recovery_energy` are non-negative, while `recoverTower` is between zero
and the number of dead-set entries. -/
theorem recovered_value_bounded :
    (∀ (geo : RawTowerGeomContainer) (dm : RawTowerDeadMap) (calib calib1 : RawTowerContainer)
        (stats stats1 : Stats) (key : keytype) (bineta binphi : Int),
      geo.get_tower_geometry key = some (bineta, binphi) →
      processTower geo dm (calib, stats) key = .ok (calib1, stats1) →
      usableEnergies dm.isDeadTower calib
        (neighborCoords geo.get_etabins geo.get_phibins bineta binphi) ≠ [] →
      ∃ e vmin vmax,
        calib1.getTowerByKey key = some e ∧
        stats1.recovery_energy = stats.recovery_energy + e ∧
        vmin ∈ usableEnergies dm.isDeadTower calib
          (neighborCoords geo.get_etabins geo.get_phibins bineta binphi) ∧
        vmax ∈ usableEnergies dm.isDeadTower calib
          (neighborCoords geo.get_etabins geo.get_phibins bineta binphi) ∧
        (∀ v ∈ usableEnergies dm.isDeadTower calib
            (neighborCoords geo.get_etabins geo.get_phibins bineta binphi),
          vmin ≤ v ∧ v ≤ vmax) ∧
        vmin ≤ e ∧ e ≤ vmax) ∧
    (∀ (m : Module) (rc : Fun4AllReturnCodes) (calib1 : RawTowerContainer) (stats1 : Stats),
      process_event m = .ok (rc, calib1, stats1) →
      ((∀ k v, m.m_calibTowers.getTowerByKey k = some v → 0 ≤ v) →
        (∀ k v, calib1.getTowerByKey k = some v → 0 ≤ v) ∧ 0 ≤ stats1.recovery_energy) ∧
      0 ≤ stats1.recoverTower ∧
      (∀ dm, m.m_deadTowerMap = some dm →
        stats1.recoverTower ≤ (dm.getDeadTowers.length : Int)) ∧
      (m.m_deadTowerMap = none → stats1.recoverTower = 0)) := by
  constructor
  · intro geo dm calib calib1 stats stats1 key bineta binphi hgeo hp hne
    obtain ⟨b, q, hg, _, hst⟩ := processTower_ok geo dm (calib, stats) (calib1, stats1) key hp
    rw [hgeo] at hg
    cases hg
    simp only [towerEffect, hne, if_false, Prod.mk.injEq] at hst
    obtain ⟨hc, hs⟩ := hst
    obtain ⟨vmin, hmin, vmax, hmax, hall⟩ := exists_min_max _ hne
    obtain ⟨hlo, hhi⟩ := mean_bounds _ vmin vmax hne hall
    refine ⟨_, vmin, vmax, ?_, ?_, hmin, hmax, hall, hlo, hhi⟩
    · rw [hc]; simp [RawTowerContainer.getTowerByKey, RawTowerContainer.AddTower]
    · rw [hs]
  · intro m rc calib1 stats1 h
    cases hdm : m.m_deadTowerMap with
    | none =>
      simp only [process_event, hdm] at h
      cases h
      exact ⟨fun h1 => ⟨h1, le_refl _⟩, le_refl _, fun dm hd => (by cases hd), fun _ => rfl⟩
    | some dm =>
      simp only [process_event, hdm] at h
      split_ifs at h with hpos
      cases hl : towerLoop m.m_geometry dm dm.getDeadTowers
          (m.m_calibTowers, { recovery_energy := 0, recoverTower := 0 }) with
      | error f => rw [hl] at h; cases h
      | ok st1 =>
        rw [hl] at h
        obtain ⟨c, s⟩ := st1
        cases h
        obtain ⟨n1, c1, c2⟩ := towerLoop_bounds m.m_geometry dm dm.getDeadTowers _ _ hl
        simp only [zero_add] at c1 c2
        refine ⟨fun h1 => n1 h1 (le_refl _), c1, ?_, fun hn => by cases hn⟩
        intro dm1 hd
        cases hd
        exact c2

theorem recovered_value_bounded_witness :
    ∃ e vmin vmax,
      (scenarioStore.AddTower 10 20).getTowerByKey 10 = some e ∧
      (7 : ℚ) + 20 = 7 + e ∧
      vmin ∈ usableEnergies scenarioDeadMap.isDeadTower scenarioStore
        (neighborCoords grid4.get_etabins grid4.get_phibins 2 2) ∧
      vmax ∈ usableEnergies scenarioDeadMap.isDeadTower scenarioStore
        (neighborCoords grid4.get_etabins grid4.get_phibins 2 2) ∧
      (∀ v ∈ usableEnergies scenarioDeadMap.isDeadTower scenarioStore
          (neighborCoords grid4.get_etabins grid4.get_phibins 2 2),
        vmin ≤ v ∧ v ≤ vmax) ∧
      vmin ≤ e ∧ e ≤ vmax :=
  recovered_value_bounded.1 grid4 scenarioDeadMap scenarioStore (scenarioStore.AddTower 10 20)
    { recovery_energy := 7, recoverTower := 3 }
    { recovery_energy := 7 + 20, recoverTower := 3 + 1 } 10 2 2 (by decide)
    (scenario_processTower { recovery_energy := 7, recoverTower := 3 }) (by decide)

/-! ## The wrap step in 32-bit arithmetic: lemmas and claims -/

end RawTowerDeadTowerInterp
